import Mathlib

/-!
Verification of the speedy-vault object store core against its
natural-language specification.

The Go sources are shallowly embedded: byte slices become `List UInt8`,
`uint64` arithmetic is `Nat` with explicit `% 2^64` where Go wraps,
SQLite tables become lists of row structures, a database transaction is
explicit state passing with rollback returning the snapshot state, and
fallible statements return `Except`/`Option`.  External collaborators
(the regex engine, the SHA-256 / BLAKE3 hash implementations, the API-key
digest lookup) are passed in as function parameters, exactly at the
interface the Go code consumes them.
-/

namespace SpeedyVault

/-- Byte strings (Go `[]byte`). -/
abbrev Bytes := List UInt8

/-- ASCII bytes of a string literal (all source literals involved are ASCII). -/
def asciiBytes (s : String) : Bytes :=
  s.data.map (fun c => UInt8.ofNat c.toNat)

/-- The check `c < '0' || c > '9'` from `Btoui64`, as a digit predicate. -/
def isAsciiDigit (c : UInt8) : Bool :=
  48 ≤ c.toNat && c.toNat ≤ 57

/-- 2^64, the modulus of Go `uint64` arithmetic. -/
def U64MOD : Nat := 18446744073709551616

/-- `MiscHandler.Btoui64` (src/src/handlers/misc.go): converts an ASCII
number inside a byte slice to a `uint64`, rejecting the empty slice and any
non-digit byte.  Go's `count*10 + digit` wraps at 2^64, hence the modulus. -/
def btoui64 (value : Bytes) : Option Nat :=
  if value.isEmpty then none
  else
    value.foldl
      (fun acc c =>
        match acc with
        | none => none
        | some n => if isAsciiDigit c then some ((n * 10 + (c.toNat - 48)) % U64MOD) else none)
      (some 0)

/-- `bytes.Split(_, []byte("-"))` restricted to a one-byte separator:
splits a byte list on every occurrence of `sep`. -/
def splitOnByte (sep : UInt8) : Bytes → List Bytes
  | [] => [[]]
  | c :: rest =>
    let r := splitOnByte sep rest
    if c = sep then [] :: r
    else
      match r with
      | [] => [[c]]
      | h :: t => (c :: h) :: t

/-- `ParsedRangeHeader` (src/src/handlers/misc.go): starting index, length
and the ready-made `Content-Range` header value. -/
structure ParsedRangeHeader where
  start : Nat
  length : Nat
  contentRangeHeader : String
deriving Repr, DecidableEq

/-- Outcome of `ParseRangeHeader`: success, the dedicated
`ParseRangeUnsatisfiableError` (carrying the `bytes */<size>` header the Go
struct is populated with in that case), or an ordinary parse error telling
the caller to ignore the header. -/
inductive RangeOutcome
  | ok (r : ParsedRangeHeader)
  | unsat (contentRangeHeader : String)
  | invalid
deriving Repr, DecidableEq

/-- `GenerateUnsatisfiableRangedHeader` from `ParseRangeHeader`. -/
def generateUnsatisfiableRangedHeader (size : Nat) : String :=
  "bytes */" ++ toString size

/-- `GenerateRangedHeader` from `ParseRangeHeader`:
`bytes <start>-<start+length-1>/<size>`. -/
def generateRangedHeader (size startByte length : Nat) : String :=
  "bytes " ++ toString startByte ++ "-" ++ toString (startByte + length - 1) ++ "/" ++ toString size

/-- `MiscHandler.ParseRangeHeader` (src/src/handlers/misc.go): parses a
`Range` header against a file of `size` bytes.  The header must start with
`bytes=`; the remainder is split on `-` into exactly two parts, at least one
of which must be non-empty; bounds are parsed with `Btoui64`. -/
def parseRangeHeader (header : Bytes) (size : Nat) : RangeOutcome :=
  if header.take 6 ≠ asciiBytes "bytes=" then .invalid
  else
    match splitOnByte 45 (header.drop 6) with
    | [v0, v1] =>
      if v0 ≠ [] ∧ v1 ≠ [] then
        match btoui64 v0 with
        | none => .invalid
        | some startIndex =>
          match btoui64 v1 with
          | none => .invalid
          | some endIndex =>
            if startIndex > endIndex ∨ startIndex ≥ size ∨ endIndex ≥ size then
              .unsat (generateUnsatisfiableRangedHeader size)
            else
              .ok ⟨startIndex, 1 + endIndex - startIndex,
                generateRangedHeader size startIndex (1 + endIndex - startIndex)⟩
      else if v0 ≠ [] then
        match btoui64 v0 with
        | none => .invalid
        | some startIndex =>
          if startIndex ≥ size then .unsat (generateUnsatisfiableRangedHeader size)
          else .ok ⟨startIndex, size - startIndex,
            generateRangedHeader size startIndex (size - startIndex)⟩
      else if v1 ≠ [] then
        match btoui64 v1 with
        | none => .invalid
        | some endIndex =>
          if endIndex = 0 ∨ endIndex > size then .unsat (generateUnsatisfiableRangedHeader size)
          else .ok ⟨size - endIndex, endIndex,
            generateRangedHeader size (size - endIndex) endIndex⟩
      else .invalid
    | _ => .invalid

/-! ## Capability flags (src/src/handlers/constants/object.go) -/

/-- `ObjectCreate`: allows creation of a complete object. -/
def ObjectCreate : Nat := 1

/-- `ObjectUpdate`: allows replacing an existing object. -/
def ObjectUpdate : Nat := 2

/-- `ObjectDelete`: allows deleting an existing object. -/
def ObjectDelete : Nat := 4

/-- `ObjectRead`: allows read access to an object. -/
def ObjectRead : Nat := 8

/-- Modelled from the spec: the `ObjectAPIKeyAccess` marker bit is used by the
handlers (BucketUpload, ObjectDownload) but its declaration is missing from the
retained constants source, which ends the enum at `ObjectRead`.  The spec lists
the capability bitset as {Create, Update, Delete, Read, APIKeyAccess} in that
order, so the marker is the next `1 << iota` bit after `ObjectRead`. -/
def ObjectAPIKeyAccess : Nat := 16

/-- `ObjectFlagBoundary_`: the `1 << iota` placeholder after the last flag.
With the spec-modelled `ObjectAPIKeyAccess` in the enum it is 32. -/
def ObjectFlagBoundary : Nat := 32

/-- `ObjectOperationFlagsAll = ObjectFlagBoundary_ - 1`: all permissions. -/
def ObjectOperationFlagsAll : Nat := ObjectFlagBoundary - 1

/-- `ObjectOperationFlags.HasRequired` (src/src/handlers/constants/object.go
lines 17-19), verbatim: `return (requiredFlags & flags) != requiredFlags`.
Note the comparison: this returns `true` exactly when `flags` does NOT
contain all of `requiredFlags`, the opposite of its own doc comment
("Determines whether the flags specified have access to all of the
specified features"). -/
def hasRequired (flags requiredFlags : Nat) : Bool :=
  (requiredFlags &&& flags) != requiredFlags

/-- `ObjectOperationFlags.HasAny`: `return (anyFlags & flags) != 0`. -/
def hasAny (flags anyFlags : Nat) : Bool :=
  (anyFlags &&& flags) != 0

/-! ## Access rules (src/src/handlers/constants/bucket.go, misc.go) -/

/-- `BucketAccessRuleAction`. -/
inductive BucketAccessRuleAction
  | allowPublic
  | allowSigned
  | denyAll
deriving Repr, DecidableEq

/-- A cached bucket access rule.  The compiled regex is an external
collaborator; it is embedded as its matching function on the request key. -/
structure AccessRule where
  matcher : Bytes → Bool
  action : BucketAccessRuleAction

/-- The in-memory bucket snapshot fields the handlers consume:
the stable id and the priority-ordered access rules. -/
structure BucketInfo where
  id : Nat
  accessRules : List AccessRule

/-- `CachedBucket.GetKeyAccessCondition`: first rule whose regex matches the
key wins; the default is `AllowSigned`. -/
def getKeyAccessCondition (b : BucketInfo) (key : Bytes) : BucketAccessRuleAction :=
  match b.accessRules.find? (fun rule => rule.matcher key) with
  | some rule => rule.action
  | none => .allowSigned

/-- `CachedBucket.GetObjectPath`: `path.Join(dataDir, FormatInt(b.id, 10),
"objects", objectId)`.  On the clean components involved `path.Join` reduces
to interposing `/` separators. -/
def getObjectPath (dataDir : String) (bucketId : Nat) (objectId : String) : String :=
  dataDir ++ "/" ++ toString bucketId ++ "/objects/" ++ objectId

/-! ## base64url (RawURLEncoding), used for ETags and signatures -/

/-- One output character of the URL-safe base64 alphabet
`A-Z a-z 0-9 - _`. -/
def b64urlChar (n : Nat) : UInt8 :=
  if n < 26 then UInt8.ofNat (65 + n)
  else if n < 52 then UInt8.ofNat (97 + (n - 26))
  else if n < 62 then UInt8.ofNat (48 + (n - 52))
  else if n = 62 then 45
  else 95

/-- `base64.RawURLEncoding.Encode`: unpadded URL-safe base64. -/
def b64urlEncode : Bytes → Bytes
  | b1 :: b2 :: b3 :: rest =>
    let n := b1.toNat * 65536 + b2.toNat * 256 + b3.toNat
    b64urlChar (n / 262144) :: b64urlChar (n / 4096 % 64) ::
      b64urlChar (n / 64 % 64) :: b64urlChar (n % 64) :: b64urlEncode rest
  | [b1, b2] =>
    let n := b1.toNat * 1024 + b2.toNat * 4
    [b64urlChar (n / 4096), b64urlChar (n / 64 % 64), b64urlChar (n % 64)]
  | [b1] =>
    let n := b1.toNat * 16
    [b64urlChar (n / 64), b64urlChar (n % 64)]
  | [] => []

/-- Value of one URL-safe base64 character, `none` on a byte outside the
alphabet (Go reports `CorruptInputError`). -/
def b64urlValue (c : UInt8) : Option Nat :=
  if 65 ≤ c.toNat ∧ c.toNat ≤ 90 then some (c.toNat - 65)
  else if 97 ≤ c.toNat ∧ c.toNat ≤ 122 then some (26 + (c.toNat - 97))
  else if 48 ≤ c.toNat ∧ c.toNat ≤ 57 then some (52 + (c.toNat - 48))
  else if c = 45 then some 62
  else if c = 95 then some 63
  else none

/-- `base64.RawURLEncoding.Decode`: rejects bytes outside the alphabet and a
trailing group of one character; the default (non-strict) Go decoder does not
check trailing padding bits. -/
def b64urlDecode : Bytes → Option Bytes
  | c1 :: c2 :: c3 :: c4 :: rest => do
    let v1 ← b64urlValue c1
    let v2 ← b64urlValue c2
    let v3 ← b64urlValue c3
    let v4 ← b64urlValue c4
    let tail ← b64urlDecode rest
    let n := v1 * 262144 + v2 * 4096 + v3 * 64 + v4
    pure (UInt8.ofNat (n / 65536) :: UInt8.ofNat (n / 256 % 256) :: UInt8.ofNat (n % 256) :: tail)
  | [c1, c2, c3] => do
    let v1 ← b64urlValue c1
    let v2 ← b64urlValue c2
    let v3 ← b64urlValue c3
    let n := v1 * 4096 + v2 * 64 + v3
    pure [UInt8.ofNat (n / 1024), UInt8.ofNat (n / 4 % 256)]
  | [c1, c2] => do
    let v1 ← b64urlValue c1
    let v2 ← b64urlValue c2
    pure [UInt8.ofNat ((v1 * 64 + v2) / 16)]
  | [_] => none
  | [] => some []

/-- The parsed strong ETag `GetObjectByKey` caches:
`'"' ++ base64url(digest) ++ '"'`. -/
def etagOf (digest : Bytes) : Bytes :=
  34 :: (b64urlEncode digest ++ [34])

/-! ## Database model (src/src/handlers/file.go, object.go)

The `files` and `objects` tables are lists of rows in insertion order;
`AUTOINCREMENT` ids are the `next*Id` counters.  A write operation runs in a
`BEGIN IMMEDIATE` transaction: it threads an in-transaction state and either
commits it or, on any error, rolls back to the state it started from.
Database-level failures (I/O, busy, ...) of each statement are injected
through a fault oracle so that error paths are part of the model. -/

/-- The statements the metadata engine executes, used to address injected
database failures. -/
inductive DbStep
  | beginTx
  | dedupUpdate
  | dedupInsert
  | insertObject
  | selectObject
  | updateObject
  | decrementRef
  | deleteFile
  | commitTx
deriving Repr, DecidableEq

/-- A fault oracle: which statements fail with a database error. -/
def FaultOracle := DbStep → Bool

/-- The oracle under which every statement succeeds. -/
def noFaults : FaultOracle := fun _ => false

/-- A database-level error: an injected statement failure, or a SQLite
constraint violation (`sqlite3.ErrConstraint`). -/
inductive SqlErr
  | injected (step : DbStep)
  | constraint
  | noRows
deriving Repr, DecidableEq

/-- An error returned by a metadata-engine operation:
`ObjectOperationConflictError` or a pass-through database error. -/
inductive OpError
  | conflict
  | db (e : SqlErr)
deriving Repr, DecidableEq

/-- A `files` row:
`(id, bucket_id, created_ms, digest, size, ref_count, uid)`. -/
structure FileRow where
  id : Nat
  bucketId : Nat
  createdMs : Int
  digest : Bytes
  size : Nat
  refCount : Int
  uid : String
deriving Repr, DecidableEq

/-- An `objects` row:
`(id, bucket_id, file_id, created_ms, key, content_type_mime)`. -/
structure ObjectRow where
  id : Nat
  bucketId : Nat
  fileId : Nat
  createdMs : Int
  key : Bytes
  contentTypeMime : Option String
deriving Repr, DecidableEq

/-- The persistent store: both tables plus their `AUTOINCREMENT` counters. -/
structure DBState where
  files : List FileRow
  objects : List ObjectRow
  nextFileId : Nat
  nextObjectId : Nat
deriving Repr, DecidableEq

/-- The freshly initialized store: empty tables, `AUTOINCREMENT` at 1. -/
def emptyState : DBState := ⟨[], [], 1, 1⟩

/-- Row-level effect of `UPDATE files SET ref_count = ref_count + 1 WHERE
id = ?`. -/
def bumpRefCount (fid : Nat) (files : List FileRow) : List FileRow :=
  files.map (fun g => if g.id = fid then { g with refCount := g.refCount + 1 } else g)

/-- Row-level effect of `UPDATE files SET ref_count = ref_count - 1 WHERE
id = ?`. -/
def decRefCount (fid : Nat) (files : List FileRow) : List FileRow :=
  files.map (fun f => if f.id = fid then { f with refCount := f.refCount - 1 } else f)

/-- Row-level effect of `UPDATE objects SET file_id = ?,
content_type_mime = ? WHERE id = ?`. -/
def setObjectFile (oid fid : Nat) (mime : Option String) (objs : List ObjectRow) :
    List ObjectRow :=
  objs.map (fun x => if x.id = oid then { x with fileId := fid, contentTypeMime := mime } else x)

/-- `FileHandler.DeduplicateOrCreateFile` (src/src/handlers/file.go): inside
the caller's transaction, `UPDATE files SET ref_count = ref_count + 1 WHERE
id = (SELECT id FROM files WHERE digest = ? AND size = ? LIMIT 1) RETURNING
id`; if no row matched, `INSERT INTO
files(bucket_id,created_ms,digest,size,ref_count,uid)` with `ref_count = 1`
and `uid = objectUid`, `RETURNING id`.  The insert is subject to the schema's
`uid UNIQUE` constraint.  Returns `(fileId, isNew)` and the updated
in-transaction state; it never commits or rolls back itself — it only
transforms the state the caller threads. -/
def deduplicateOrCreateFile (faults : FaultOracle) (now : Int) (bucketId : Nat)
    (objectUid : String) (digest : Bytes) (size : Nat) (st : DBState) :
    Except SqlErr (Nat × Bool × DBState) :=
  if faults .dedupUpdate then .error (.injected .dedupUpdate)
  else
    match st.files.find? (fun f => f.digest == digest && f.size == size) with
    | some f =>
      .ok (f.id, false, { st with files := bumpRefCount f.id st.files })
    | none =>
      if faults .dedupInsert then .error (.injected .dedupInsert)
      else if st.files.any (fun g => g.uid == objectUid) then .error .constraint
      else
        .ok (st.nextFileId, true,
          { st with
              files := st.files ++ [⟨st.nextFileId, bucketId, now, digest, size, 1, objectUid⟩],
              nextFileId := st.nextFileId + 1 })

/-- Result of a metadata write operation: the returned error (if any), the
committed database state, and the disk blob paths the operation removed
after the fact (in removal order). -/
structure OpOutput where
  result : Except OpError Unit
  state : DBState
  blobsDeleted : List String
deriving Repr

/-- `ObjectHandler.CreateObject` (src/src/handlers/object.go lines 181-245):
`BEGIN IMMEDIATE`; `DeduplicateOrCreateFile`; `INSERT INTO
objects(bucket_id,file_id,created_ms,key,content_type_mime)
VALUES(?,?,?,?,?)`; `COMMIT`.  Any error rolls back and returns it; a unique
`(bucket_id, key)` violation rolls back and returns
`ObjectOperationConflictError`.  After a successful commit, if the file was
deduplicated (`!isNew`) the redundant candidate blob at `objectUid` is
removed from disk.

The Go call passes six positional values (`bucket.id, fileId, now, key,
contentTypeMime, digest`) to the five-placeholder INSERT; go-sqlite3's
`Exec` binds only the first `NumInput` arguments, so the surplus `digest`
value is dropped and the row is built from the first five (the latent extra
positional the spec's design notes flag). -/
def createObject (faults : FaultOracle) (now : Int) (dataDir : String) (bucketId : Nat)
    (objectUid : String) (contentTypeMime : Option String) (digest : Bytes) (size : Nat)
    (key : Bytes) (st : DBState) : OpOutput :=
  if faults .beginTx then ⟨.error (.db (.injected .beginTx)), st, []⟩
  else
    match deduplicateOrCreateFile faults now bucketId objectUid digest size st with
    | .error e => ⟨.error (.db e), st, []⟩
    | .ok (fileId, isNew, st1) =>
      if faults .insertObject then ⟨.error (.db (.injected .insertObject)), st, []⟩
      else if st1.objects.any (fun o => o.bucketId == bucketId && o.key == key) then
        ⟨.error .conflict, st, []⟩
      else
        let st2 : DBState :=
          { st1 with
              objects := st1.objects ++
                [⟨st1.nextObjectId, bucketId, fileId, now, key, contentTypeMime⟩],
              nextObjectId := st1.nextObjectId + 1 }
        if faults .commitTx then ⟨.error (.db (.injected .commitTx)), st, []⟩
        else ⟨.ok (), st2, if isNew then [] else [getObjectPath dataDir bucketId objectUid]⟩

/-- `ObjectHandler.ReplaceObject` (src/src/handlers/object.go lines 249-349):
`BEGIN IMMEDIATE`; `SELECT id,file_id FROM objects WHERE key = ?` (note: no
`bucket_id` filter; `QueryRow` yields the first matching row) — no row rolls
back with `ObjectOperationConflictError`; `DeduplicateOrCreateFile`; `UPDATE
objects SET file_id = ?, content_type_mime = ? WHERE id = ?`; `UPDATE files
SET ref_count = ref_count - 1 WHERE id = ? RETURNING ref_count` on the
previous file; if that count reached 0, `DELETE FROM files WHERE id = ?
RETURNING uid` and remember the orphaned uid; `COMMIT`.  Every error path
rolls back and deletes nothing.  After a successful commit the candidate
blob is removed if the file was deduplicated, and the orphaned blob (if one
was collected) is removed by the deferred cleanup, in that order. -/
def replaceObject (faults : FaultOracle) (now : Int) (dataDir : String) (bucketId : Nat)
    (objectUid : String) (contentTypeMime : Option String) (digest : Bytes) (size : Nat)
    (key : Bytes) (st : DBState) : OpOutput :=
  if faults .beginTx then ⟨.error (.db (.injected .beginTx)), st, []⟩
  else if faults .selectObject then ⟨.error (.db (.injected .selectObject)), st, []⟩
  else
    match st.objects.find? (fun o => o.key == key) with
    | none => ⟨.error .conflict, st, []⟩
    | some obj =>
      match deduplicateOrCreateFile faults now bucketId objectUid digest size st with
      | .error e => ⟨.error (.db e), st, []⟩
      | .ok (fileId, isFileNew, st1) =>
        if faults .updateObject then ⟨.error (.db (.injected .updateObject)), st, []⟩
        else
          let st2 : DBState :=
            { st1 with objects := setObjectFile obj.id fileId contentTypeMime st1.objects }
          if faults .decrementRef then ⟨.error (.db (.injected .decrementRef)), st, []⟩
          else
            match st2.files.find? (fun f => f.id == obj.fileId) with
            | none => ⟨.error (.db .noRows), st, []⟩
            | some pf =>
              let st3 : DBState :=
                { st2 with files := decRefCount obj.fileId st2.files }
              if pf.refCount - 1 = 0 then
                if faults .deleteFile then ⟨.error (.db (.injected .deleteFile)), st, []⟩
                else
                  let st4 : DBState :=
                    { st3 with files := st3.files.filter (fun f => f.id ≠ obj.fileId) }
                  if faults .commitTx then ⟨.error (.db (.injected .commitTx)), st, []⟩
                  else
                    ⟨.ok (), st4,
                      (if isFileNew then [] else [getObjectPath dataDir bucketId objectUid]) ++
                        [getObjectPath dataDir bucketId pf.uid]⟩
              else if faults .commitTx then ⟨.error (.db (.injected .commitTx)), st, []⟩
              else
                ⟨.ok (), st3,
                  if isFileNew then [] else [getObjectPath dataDir bucketId objectUid]⟩

/-- `ObjectHandler.GetObjectByKey` (src/src/handlers/object.go lines
377-407): `SELECT ... FROM objects INNER JOIN files ON objects.file_id =
files.id WHERE objects.key = ? AND objects.bucket_id = ?`; no row yields
`(nil, nil)`. -/
def getObjectByKey (st : DBState) (bucketId : Nat) (key : Bytes) :
    Option (ObjectRow × FileRow) :=
  match st.objects.find? (fun o => o.key == key && o.bucketId == bucketId) with
  | none => none
  | some o =>
    match st.files.find? (fun f => f.id == o.fileId) with
    | none => none
    | some f => some (o, f)

/-! ## Authorization resolver (src/src/routes/middleware/authorization.go)

`AuthorizeBucketAPIRequest` after the bucket has been located.  The hash
implementations (crypto/sha256, zeebo/blake3) and the API-key store lookup
(base64 + SHA-512 digest map) are external collaborators passed as
functions.  A missing header or query parameter surfaces as the empty byte
slice, exactly as `fasthttp`'s `Peek` reports it. -/

/-- The bucket-side authorization material the resolver consumes: whether a
presented API-key secret is in the bucket's key store, and the bucket's MAC
selector map (`selector (u32) → 32-byte secret`). -/
structure AuthBucket where
  apiKeyValid : Bytes → Bool
  macSelectors : List (Nat × Bytes)

/-- The authorization-relevant parts of a request: the path, the
`X-SV-Auth-Key` header and the `alg`/`sel`/`exp`/`acc`/`sig` query
parameters (empty byte slice = absent). -/
structure AuthRequest where
  path : Bytes
  apiKeyHeader : Bytes
  alg : Bytes
  sel : Bytes
  exp : Bytes
  acc : Bytes
  sig : Bytes

/-- Outcome of `AuthorizeBucketAPIRequest`: either the bucket together with
the granted capability flags, or a rejection that already wrote `status`
and `msg` to the response. -/
inductive AuthOutcome
  | authorized (flags : Nat)
  | denied (status : Nat) (msg : String)
deriving Repr, DecidableEq

/-- Go's `int64(expiry)` cast of a `uint64`: two's-complement wrap. -/
def int64OfUInt64 (n : Nat) : Int :=
  if n < 9223372036854775808 then (n : Int) else (n : Int) - (U64MOD : Int)

/-- `AuthorizeBucketAPIRequest` (src/src/routes/middleware/authorization.go
lines 55-199) after the bucket lookup: API-key branch granting
`ObjectOperationFlagsAll`, signed-URL branch validating `sel`/`exp`/`acc`/
`sig` and the MAC digest `H(path || expRaw || accRaw || secret)` for
`MAC-SHA256` or `MAC-BLAKE3256`, and the fall-through granting no flags. -/
def authorizeBucketAPIRequest (sha256 blake3 : Bytes → Bytes) (nowMs skewMs : Int)
    (bucket : AuthBucket) (req : AuthRequest) : AuthOutcome :=
  if req.apiKeyHeader ≠ [] then
    if bucket.apiKeyValid req.apiKeyHeader then .authorized ObjectOperationFlagsAll
    else .denied 401 ""
  else if req.alg ≠ [] then
    if req.sel = [] then .denied 400 "signed objects must contain a selector 'sel'"
    else if req.exp = [] then .denied 400 "signed objects must contain an expiry 'exp'"
    else if req.acc = [] then .denied 400 "signed objects must contain an access 'acc'"
    else
      match btoui64 req.sel with
      | none => .denied 400 "invalid selector 'sel' value"
      | some selectorKey =>
        match btoui64 req.exp with
        | none => .denied 400 "invalid expiry 'exp' value"
        | some expiry =>
          if nowMs > int64OfUInt64 expiry + skewMs then
            .denied 401 "permission denied (access to object has expired)"
          else
            match btoui64 req.acc with
            | none => .denied 400 "invalid access 'acc' value"
            | some access =>
              if access = 0 ∨ access ≥ ObjectFlagBoundary then
                .denied 400 "invalid access 'acc' value"
              else if req.sig = [] then
                .denied 400 "signed objects must contain a signature 'sig'"
              else
                match b64urlDecode req.sig with
                | none => .denied 400 "invalid signature 'sig' encoding"
                | some decodedSignature =>
                  if req.alg = asciiBytes "MAC-SHA256" then
                    if decodedSignature.length ≠ 32 then
                      .denied 400 "invalid signature 'sig' digest length"
                    else
                      match (bucket.macSelectors.find? (fun s => s.1 == selectorKey % 4294967296)).map Prod.snd with
                      | none => .denied 401 "permission denied (unknown selector)"
                      | some secret =>
                        if sha256 (req.path ++ req.exp ++ req.acc ++ secret) = decodedSignature then
                          .authorized access
                        else .denied 401 "permission denied (invalid signature)"
                  else if req.alg = asciiBytes "MAC-BLAKE3256" then
                    if decodedSignature.length ≠ 32 then
                      .denied 400 "invalid signature 'sig' digest length"
                    else
                      match (bucket.macSelectors.find? (fun s => s.1 == selectorKey % 4294967296)).map Prod.snd with
                      | none => .denied 401 "permission denied (unknown selector)"
                      | some secret =>
                        if blake3 (req.path ++ req.exp ++ req.acc ++ secret) = decodedSignature then
                          .authorized access
                        else .denied 401 "permission denied (invalid signature)"
                  else .authorized 0
  else .authorized 0

/-! ## Download pipeline (src/unnamed/part_002, `ObjectDownload`)

Modelled after authorization, up to and including opening the on-disk blob;
the hijacked-socket byte streaming that follows is outside the shallow
embedding (it writes the already-decided response head and the file
contents).  The disk is the set of existing blob paths. -/

/-- A decided HTTP response head: status code and error body. -/
structure HttpResponse where
  status : Nat
  body : String
deriving Repr, DecidableEq

/-- The download-relevant request headers (empty byte slice = absent). -/
structure DownloadRequest where
  key : Bytes
  ifNoneMatch : Bytes
  rangeHeader : Bytes
  ifRange : Bytes

/-- `ObjectDownload` (src/unnamed/part_002) after authorization: the access
rule gate (note both branches test `!access.HasRequired(...)` with the
inverted `HasRequired` of the constants source), `GetObjectByKey`, the
`If-None-Match` check, `Range`/`If-Range` handling, and the `os.Open` of the
blob at `bucket.GetObjectPath(object.File.UID)` which yields 500 when the
blob is absent.  On success the status is 206 when a satisfiable range was
applied and 200 otherwise. -/
def objectDownload (bucket : BucketInfo) (access : Nat) (req : DownloadRequest)
    (st : DBState) (disk : List String) (dataDir : String) : HttpResponse :=
  let condition := getKeyAccessCondition bucket req.key
  if condition = .denyAll ∧ ¬ hasRequired access ObjectAPIKeyAccess then
    ⟨403, "permission denied (resource is restricted)"⟩
  else if condition = .allowSigned ∧ ¬ hasRequired access ObjectRead then
    ⟨401, "permission denied (insufficient access)"⟩
  else
    match getObjectByKey st bucket.id req.key with
    | none => ⟨404, "object not found"⟩
    | some (obj, file) =>
      let etag := etagOf file.digest
      if req.ifNoneMatch ≠ [] ∧ req.ifNoneMatch = etag then ⟨304, ""⟩
      else
        let ranged : Option (Nat × Nat) ⊕ String :=
          if req.rangeHeader ≠ [] ∧ (req.ifRange = [] ∨ req.ifRange = etag) then
            match parseRangeHeader req.rangeHeader file.size with
            | .ok r => .inl (some (r.start, r.length))
            | .unsat cr => .inr cr
            | .invalid => .inl none
          else .inl none
        match ranged with
        | .inr _ => ⟨416, ""⟩
        | .inl rangeApplied =>
          if getObjectPath dataDir bucket.id file.uid ∈ disk then
            match rangeApplied, obj.contentTypeMime with
            | some _, _ => ⟨206, ""⟩
            | none, _ => ⟨200, ""⟩
          else ⟨500, ""⟩

/-! ## Upload pipeline (src/unnamed/part_000, `BucketUpload`) -/

/-- Result of `BucketUpload`: the response head, the committed database
state and the resulting disk contents. -/
structure UploadOutput where
  response : HttpResponse
  state : DBState
  disk : List String
deriving Repr

/-- The replace attempt and the trailing conflict/permission decision of
`BucketUpload` (src/unnamed/part_000 lines 248-275); `createConflict` says
whether the create attempt ended in `ObjectOperationConflictError`
(`objectCreateError` is `nil` when the attempt was skipped). -/
def bucketUploadUpdatePhase (faults : FaultOracle) (now : Int) (dataDir : String)
    (bucket : BucketInfo) (access : Nat) (key : Bytes) (contentTypeMime : Option String)
    (digest : Bytes) (size : Nat) (objectUid : String) (objectFilePath : String)
    (st : DBState) (disk1 : List String) (createConflict : Bool) : UploadOutput :=
  let afterUpdate : Option OpOutput :=
    if hasRequired access ObjectUpdate then
      some (replaceObject faults now dataDir bucket.id objectUid contentTypeMime digest size key st)
    else none
  match afterUpdate with
  | some out =>
    match out.result with
    | .ok _ => ⟨⟨200, ""⟩, out.state, disk1.filter (fun p => p ∉ out.blobsDeleted)⟩
    | .error .conflict =>
      if createConflict then
        ⟨⟨503, "operation conflict detected"⟩, st, disk1.filter (fun p => p ≠ objectFilePath)⟩
      else
        ⟨⟨401, "permission denied (insufficient access)"⟩, st,
          disk1.filter (fun p => p ≠ objectFilePath)⟩
    | .error _ => ⟨⟨500, ""⟩, out.state, disk1.filter (fun p => p ≠ objectFilePath)⟩
  | none =>
    ⟨⟨401, "permission denied (insufficient access)"⟩, st,
      disk1.filter (fun p => p ≠ objectFilePath)⟩

/-- `BucketUpload` (src/unnamed/part_000 lines 135-275) after
authorization: the `HasAny(ObjectCreate | ObjectUpdate)` check, the
`DenyAll` gate, creation of the candidate blob at
`bucket.GetObjectPath(objectUid)`, the chunked receive (the 413 cap check
fires exactly when the total body size exceeds `maxSinglePartSize`; the
BLAKE3 digest of the body is computed alongside), and the
create-then-replace dispatch whose branches are guarded by the inverted
`HasRequired`.  The body is received as a whole since only its total length
and digest are consumed downstream. -/
def bucketUpload (faults : FaultOracle) (now : Int) (dataDir : String)
    (blake3 : Bytes → Bytes) (maxSinglePartSize : Nat) (bucket : BucketInfo)
    (access : Nat) (key : Bytes) (body : Bytes) (contentTypeMime : Option String)
    (objectUid : String) (st : DBState) (disk : List String) : UploadOutput :=
  if ¬ hasAny access (ObjectCreate ||| ObjectUpdate) then
    ⟨⟨401, "permission denied (insufficient access)"⟩, st, disk⟩
  else if getKeyAccessCondition bucket key = .denyAll ∧ ¬ hasRequired access ObjectAPIKeyAccess then
    ⟨⟨403, "permission denied (resource is restricted)"⟩, st, disk⟩
  else
    let objectFilePath := getObjectPath dataDir bucket.id objectUid
    let disk1 := objectFilePath :: disk
    if body.length > maxSinglePartSize then
      ⟨⟨413, "single part cannot exceed " ++ toString maxSinglePartSize ++ " bytes"⟩,
        st, disk⟩
    else
      let digest := blake3 body
      let size := body.length
      let afterCreate : Option OpOutput :=
        if hasRequired access ObjectCreate then
          some (createObject faults now dataDir bucket.id objectUid contentTypeMime digest size key st)
        else none
      match afterCreate with
      | some out =>
        match out.result with
        | .ok _ => ⟨⟨201, ""⟩, out.state, disk1.filter (fun p => p ∉ out.blobsDeleted)⟩
        | .error .conflict =>
          bucketUploadUpdatePhase faults now dataDir bucket access key contentTypeMime digest size
            objectUid objectFilePath st disk1 true
        | .error _ => ⟨⟨500, ""⟩, out.state, disk1.filter (fun p => p ≠ objectFilePath)⟩
      | none =>
        bucketUploadUpdatePhase faults now dataDir bucket access key contentTypeMime digest size
          objectUid objectFilePath st disk1 false

/-! ## Concrete scenarios used by the access-gate and cross-bucket claims -/

/-- Bucket `A` (id 1) with no access rules, so every key evaluates to the
default `AllowSigned`. -/
def bucketA : BucketInfo := ⟨1, []⟩

/-- Bucket `A` wrapped with a catch-all `DenyAll` rule. -/
def bucketADenyAll : BucketInfo := ⟨1, [⟨fun _ => true, .denyAll⟩]⟩

/-- Bucket `B` (id 2) with no access rules. -/
def bucketB : BucketInfo := ⟨2, []⟩

/-- A file row owned by bucket `A`: digest `[1,2,3]`, size 3, one
reference, blob uid `uidA`. -/
def fileA : FileRow := ⟨1, 1, 0, [1, 2, 3], 3, 1, "uidA"⟩

/-- Bucket `A`'s object under key `/foo`, referencing `fileA`. -/
def objA : ObjectRow := ⟨1, 1, 1, 0, asciiBytes "/foo", none⟩

/-- Store holding exactly bucket `A`'s object and file. -/
def stA : DBState := ⟨[fileA], [objA], 2, 2⟩

/-- The disk holding exactly `fileA`'s blob, under bucket `A`'s directory. -/
def diskA : List String := [getObjectPath "data" 1 "uidA"]

/-- A plain `GET /foo` with no conditional or range headers. -/
def reqFoo : DownloadRequest := ⟨asciiBytes "/foo", [], [], []⟩

/-- C1: the claim says the download pipeline must 401 on an `AllowSigned`
path when the capability set lacks `ObjectRead` and proceed when it holds
it.  The code does the exact opposite: with only `ObjectRead` (acc = 8) the
request is rejected 401 "permission denied (insufficient access)", and with
the empty capability set the object is served with 200.  The cause is
`HasRequired` (src/src/handlers/constants/object.go line 18) returning
`(required & flags) != required`, `true` precisely when the flags LACK the
required bits — the inverse of its own doc comment. -/
theorem C1_download_read_gate_inverted :
    (objectDownload bucketA ObjectRead reqFoo stA diskA "data").status = 401 ∧
    (objectDownload bucketA ObjectRead reqFoo stA diskA "data").body =
      "permission denied (insufficient access)" ∧
    (objectDownload bucketA 0 reqFoo stA diskA "data").status = 200 :=
  ⟨rfl, rfl, rfl⟩

/-- C2: the claim says a `DenyAll` path must 403 unless the capability set
carries `ObjectAPIKeyAccess`, which lets the request through.  Because of
the inverted `HasRequired`, the code 403s exactly the requests that carry
the marker (an API key gets `ObjectOperationFlagsAll = 31`, marker
included) and lets marker-less requests through, on both the GET gate
(src/unnamed/part_002 lines 28-34) and the PUT gate (src/unnamed/part_000
lines 152-159): the API-key GET and PUT both answer 403, while a signed
request with only `ObjectUpdate` passes the GET gate (served 200) and a
create-capable one passes the PUT gate (201 created). -/
theorem C2_denyall_gate_inverted :
    (objectDownload bucketADenyAll ObjectOperationFlagsAll reqFoo stA diskA "data").status = 403 ∧
    (objectDownload bucketADenyAll ObjectRead reqFoo stA diskA "data").status = 200 ∧
    (bucketUpload noFaults 5 "data" (fun _ => [9]) 100 bucketADenyAll ObjectOperationFlagsAll
        (asciiBytes "/foo") [7] none "candUid" stA diskA).response =
      ⟨403, "permission denied (resource is restricted)"⟩ ∧
    (bucketUpload noFaults 5 "data" (fun _ => [9]) 100 bucketADenyAll ObjectUpdate
        (asciiBytes "/new") [7] none "candUid" stA diskA).response.status = 201 :=
  ⟨rfl, rfl, rfl, rfl⟩

/-- The digest function for the cross-bucket upload scenario: every body
hashes to `fileA`'s digest `[1,2,3]` (the uploaded content equals bucket
`A`'s file content). -/
def hashContentA : Bytes → Bytes := fun _ => [1, 2, 3]

/-- C9's upload step: bucket `B` (id 2) uploads content with bucket `A`'s
digest/size under the fresh key `/bar`, with capability set `{ObjectUpdate}`
(which, through the inverted `HasRequired`, routes into `CreateObject`). -/
def uploadToB : UploadOutput :=
  bucketUpload noFaults 5 "data" hashContentA 100 bucketB ObjectUpdate
    (asciiBytes "/bar") [9, 9, 9] none "candB" stA diskA

/-- C9: `DeduplicateOrCreateFile` matches on `(digest, size)` with no bucket
filter, so bucket `B`'s upload of content identical to bucket `A`'s file
increments `fileA`'s refcount to 2 and links `B`'s new object to `fileA`
(whose `bucket_id` stays 1 and whose blob stays at `data/1/objects/uidA`,
the only blob on disk); the download of that object through `B` then builds
the blob path from `B`'s bucket id (`data/2/objects/uidA`), finds nothing,
and fails with 500. -/
theorem C9_cross_bucket_dedup_breaks_download :
    uploadToB.response.status = 201 ∧
    uploadToB.state.files = [{ fileA with refCount := 2 }] ∧
    uploadToB.state.objects =
      [objA, ⟨2, 2, 1, 5, asciiBytes "/bar", none⟩] ∧
    uploadToB.disk = ["data/1/objects/uidA"] ∧
    getObjectPath "data" 2 "uidA" = "data/2/objects/uidA" ∧
    (objectDownload bucketB 0 ⟨asciiBytes "/bar", [], [], []⟩
        uploadToB.state uploadToB.disk "data").status = 500 :=
  ⟨rfl, rfl, rfl, rfl, rfl, rfl⟩

/-- Bucket `B`'s object under the same key `/foo` as bucket `A`'s,
referencing `B`'s own file. -/
def objB : ObjectRow := ⟨2, 2, 2, 0, asciiBytes "/foo", none⟩

/-- Bucket `B`'s file row. -/
def fileB : FileRow := ⟨2, 2, 0, [4, 5], 2, 1, "uidB"⟩

/-- Store where buckets `A` and `B` each hold an object under key `/foo`
(legal: the unique constraint is on `(bucket_id, key)`), `A`'s row first. -/
def stShared : DBState := ⟨[fileA, fileB], [objA, objB], 3, 3⟩

/-- C10's replace step: bucket `B` (id 2) replaces `/foo` with new content. -/
def replaceViaB : OpOutput :=
  replaceObject noFaults 7 "data" 2 "cand2" none [8, 8] 2 (asciiBytes "/foo") stShared

/-- C10: `ReplaceObject` selects its target with `SELECT id,file_id FROM
objects WHERE key = ?` — no `bucket_id` filter — so when buckets `A` and
`B` both hold `/foo`, the call made on behalf of bucket `B` picks the first
row for that key, which is bucket `A`'s: the commit rewrites `A`'s object
row (id 1, bucket_id 1) to point at the newly created file, while `B`'s own
row (id 2) is untouched. -/
theorem C10_replace_ignores_bucket :
    replaceViaB.result = Except.ok () ∧
    replaceViaB.state.objects =
      [{ objA with fileId := 3 }, objB] ∧
    objA.bucketId = 1 ∧ objB.bucketId = 2 :=
  ⟨rfl, rfl, rfl, rfl⟩

/-! ## Range header parsing (claim C7) -/

/-- Folding the `Btoui64` step from a dead accumulator stays dead. -/
theorem btoui64_foldl_none (l : Bytes) :
    l.foldl
      (fun acc c =>
        match acc with
        | none => none
        | some n => if isAsciiDigit c then some ((n * 10 + (c.toNat - 48)) % U64MOD) else none)
      (none : Option Nat) = none := by
  induction l with
  | nil => rfl
  | cons c rest ih => simpa using ih

/-- Folding the `Btoui64` step over a slice containing a non-digit dies,
whatever the accumulator. -/
theorem btoui64_foldl_nondigit (l : Bytes) (c : UInt8) (hc : c ∈ l)
    (hcd : ¬ isAsciiDigit c) : ∀ acc : Option Nat,
    l.foldl
      (fun acc c =>
        match acc with
        | none => none
        | some n => if isAsciiDigit c then some ((n * 10 + (c.toNat - 48)) % U64MOD) else none)
      acc = none := by
  induction l with
  | nil => simp at hc
  | cons a t ih =>
    intro acc
    rcases List.mem_cons.mp hc with hca | hct
    · have hstep : (match acc with
          | none => none
          | some n => if isAsciiDigit a then some ((n * 10 + (a.toNat - 48)) % U64MOD) else none) =
          (none : Option Nat) := by
        cases acc with
        | none => rfl
        | some n => simp [hca ▸ hcd]
      simpa [hstep] using btoui64_foldl_none t
    · simpa using ih hct _

/-- A byte slice containing a non-digit never parses. -/
theorem btoui64_eq_none_of_nondigit (l : Bytes) (h : ∃ c ∈ l, ¬ isAsciiDigit c) :
    btoui64 l = none := by
  obtain ⟨c, hc, hcd⟩ := h
  have hne : ¬ l.isEmpty := by
    cases l with
    | nil => simp at hc
    | cons a t => simp
  unfold btoui64
  rw [if_neg hne]
  exact btoui64_foldl_nondigit l c hc hcd (some 0)

/-- `splitOnByte` on a slice free of the separator is the slice itself. -/
theorem splitOnByte_no_sep (sep : UInt8) (l : Bytes) (h : sep ∉ l) :
    splitOnByte sep l = [l] := by
  induction l with
  | nil => rfl
  | cons c rest ih =>
    have hcs : c ≠ sep := fun hc => h (hc ▸ List.mem_cons_self c rest)
    have hrest : sep ∉ rest := fun hr => h (List.mem_cons_of_mem c hr)
    simp [splitOnByte, hcs, ih hrest]

/-- `splitOnByte` peels off the part before the first separator. -/
theorem splitOnByte_append (sep : UInt8) (l1 l2 : Bytes) (h : sep ∉ l1) :
    splitOnByte sep (l1 ++ sep :: l2) = l1 :: splitOnByte sep l2 := by
  induction l1 with
  | nil => simp [splitOnByte]
  | cons c rest ih =>
    have hcs : c ≠ sep := fun hc => h (hc ▸ List.mem_cons_self c rest)
    have hrest : sep ∉ rest := fun hr => h (List.mem_cons_of_mem c hr)
    simp [splitOnByte, hcs, ih hrest]

/-- C7: behaviour of `ParseRangeHeader` on `bytes=<ds1>-<ds2>` headers, for
a file of `size` bytes.  With `a`/`b` the parsed `uint64` values of the
bounds: `bytes=a-b` yields `start = a`, `length = b - a + 1`, unsatisfiable
exactly when `a > b ∨ a ≥ size ∨ b ≥ size`; `bytes=a-` yields `[a, size-1]`,
unsatisfiable exactly when `a ≥ size`; `bytes=-b` yields the final `b` bytes
(`start = size - b`, `length = b`), unsatisfiable exactly when
`b = 0 ∨ b > size`; and a non-ASCII-digit byte in either bound yields the
ordinary parse error (header ignored), never the unsatisfiable error. -/
theorem C7_parse_range_header (size : Nat) (ds1 ds2 : Bytes)
    (h1 : (45 : UInt8) ∉ ds1) (h2 : (45 : UInt8) ∉ ds2) :
    (∀ a b : Nat, ds1 ≠ [] → ds2 ≠ [] → btoui64 ds1 = some a → btoui64 ds2 = some b →
      parseRangeHeader (asciiBytes "bytes=" ++ ds1 ++ 45 :: ds2) size =
        (if a > b ∨ a ≥ size ∨ b ≥ size then
          RangeOutcome.unsat (generateUnsatisfiableRangedHeader size)
         else RangeOutcome.ok ⟨a, b - a + 1, generateRangedHeader size a (b - a + 1)⟩)) ∧
    (∀ a : Nat, ds1 ≠ [] → ds2 = [] → btoui64 ds1 = some a →
      parseRangeHeader (asciiBytes "bytes=" ++ ds1 ++ 45 :: ds2) size =
        (if a ≥ size then RangeOutcome.unsat (generateUnsatisfiableRangedHeader size)
         else RangeOutcome.ok ⟨a, size - a, generateRangedHeader size a (size - a)⟩)) ∧
    (∀ b : Nat, ds1 = [] → ds2 ≠ [] → btoui64 ds2 = some b →
      parseRangeHeader (asciiBytes "bytes=" ++ ds1 ++ 45 :: ds2) size =
        (if b = 0 ∨ b > size then RangeOutcome.unsat (generateUnsatisfiableRangedHeader size)
         else RangeOutcome.ok ⟨size - b, b, generateRangedHeader size (size - b) b⟩)) ∧
    ((∃ c ∈ ds1 ++ ds2, ¬ isAsciiDigit c) →
      parseRangeHeader (asciiBytes "bytes=" ++ ds1 ++ 45 :: ds2) size = RangeOutcome.invalid) := by
  have htake : (asciiBytes "bytes=" ++ (ds1 ++ 45 :: ds2)).take 6 = asciiBytes "bytes=" :=
    List.take_left (asciiBytes "bytes=") _
  have hdrop : (asciiBytes "bytes=" ++ (ds1 ++ 45 :: ds2)).drop 6 = ds1 ++ 45 :: ds2 :=
    List.drop_left (asciiBytes "bytes=") _
  have hsplit : splitOnByte 45 (ds1 ++ 45 :: ds2) = [ds1, ds2] := by
    rw [splitOnByte_append 45 ds1 ds2 h1, splitOnByte_no_sep 45 ds2 h2]
  refine ⟨?_, ?_, ?_, ?_⟩
  · intro a b hne1 hne2 ha hb
    by_cases hun : a > b ∨ a ≥ size ∨ b ≥ size
    · simp [parseRangeHeader, htake, hdrop, hsplit, hne1, hne2, ha, hb, hun]
    · have hab : a ≤ b := le_of_not_lt (fun hlt => hun (Or.inl hlt))
      have hlen : 1 + b - a = b - a + 1 := by omega
      simp [parseRangeHeader, htake, hdrop, hsplit, hne1, hne2, ha, hb, hun, hlen]
  · intro a hne1 he2 ha
    subst he2
    simp [parseRangeHeader, htake, hdrop, hsplit, hne1, ha]
  · intro b he1 hne2 hb
    subst he1
    simp only [List.nil_append] at htake hdrop hsplit
    simp [parseRangeHeader, htake, hdrop, hsplit, hne2, hb]
  · intro hnd
    rcases hnd with ⟨c, hc, hcd⟩
    rcases List.mem_append.mp hc with hc1 | hc2
    · have hne1 : ds1 ≠ [] := by rintro rfl; simp at hc1
      have hnone := btoui64_eq_none_of_nondigit ds1 ⟨c, hc1, hcd⟩
      by_cases hne2 : ds2 = []
      · subst hne2
        simp [parseRangeHeader, htake, hdrop, hsplit, hne1, hnone]
      · rcases hb : btoui64 ds2 with _ | b
        · simp [parseRangeHeader, htake, hdrop, hsplit, hne1, hne2, hnone]
        · simp [parseRangeHeader, htake, hdrop, hsplit, hne1, hne2, hnone, hb]
    · have hne2 : ds2 ≠ [] := by rintro rfl; simp at hc2
      have hnone := btoui64_eq_none_of_nondigit ds2 ⟨c, hc2, hcd⟩
      by_cases hne1 : ds1 = []
      · subst hne1
        simp only [List.nil_append] at htake hdrop hsplit
        simp [parseRangeHeader, htake, hdrop, hsplit, hne2, hnone]
      · rcases ha : btoui64 ds1 with _ | a
        · simp [parseRangeHeader, htake, hdrop, hsplit, hne1, hne2, hnone, ha]
        · simp [parseRangeHeader, htake, hdrop, hsplit, hne1, hne2, hnone, ha]

/-- C7 witness: `bytes=2-5` against a 10-byte file is the satisfiable range
`[2, 5]` of length 4, via the main theorem at concrete inputs. -/
theorem C7_parse_range_header_witness :
    parseRangeHeader (asciiBytes "bytes=2-5") 10 =
      RangeOutcome.ok ⟨2, 4, generateRangedHeader 10 2 4⟩ := by
  have h := (C7_parse_range_header 10 (asciiBytes "2") (asciiBytes "5")
      (by decide) (by decide)).1 2 5 (by decide) (by decide) (by decide) (by decide)
  simpa using h

/-! ## Deduplication (claim C6) -/

/-- C6: `DeduplicateOrCreateFile` with `(digest, size, candidateUid)`, with
no database failure and a candidate uid not already taken.  If some files
row matches `(digest, size)` (the first one, per the `LIMIT 1` subquery),
it returns that row's id with `isNew = false` and the only change to the
transaction state is that row's `ref_count` incremented by exactly one
(objects, id counters and all other file rows untouched); otherwise it
returns a fresh id with `isNew = true` and the only change is a new files
row with `ref_count = 1` and `uid = candidateUid`.  Both cases return
without error; the function only transforms the open transaction state —
commit and rollback are performed by its callers. -/
theorem C6_dedup_or_create (now : Int) (bucketId : Nat) (objectUid : String)
    (digest : Bytes) (size : Nat) (st : DBState)
    (hfresh : ∀ f ∈ st.files, f.uid ≠ objectUid)
    (hnd : (st.files.map FileRow.id).Nodup) :
    (∀ f, st.files.find? (fun g => g.digest == digest && g.size == size) = some f →
      ∃ st', deduplicateOrCreateFile noFaults now bucketId objectUid digest size st =
          Except.ok (f.id, false, st') ∧
        st'.objects = st.objects ∧
        st'.nextFileId = st.nextFileId ∧
        st'.nextObjectId = st.nextObjectId ∧
        st'.files.length = st.files.length ∧
        { f with refCount := f.refCount + 1 } ∈ st'.files ∧
        (∀ g ∈ st.files, g.id ≠ f.id → g ∈ st'.files) ∧
        (∀ g' ∈ st'.files, g' ∈ st.files ∨ g' = { f with refCount := f.refCount + 1 })) ∧
    (st.files.find? (fun g => g.digest == digest && g.size == size) = none →
      deduplicateOrCreateFile noFaults now bucketId objectUid digest size st =
        Except.ok (st.nextFileId, true,
          { st with
              files := st.files ++ [⟨st.nextFileId, bucketId, now, digest, size, 1, objectUid⟩],
              nextFileId := st.nextFileId + 1 })) := by
  constructor
  · intro f hfind
    have hfmem : f ∈ st.files := List.mem_of_find?_eq_some hfind
    refine ⟨{ st with files := bumpRefCount f.id st.files },
      ?_, rfl, rfl, rfl, by simp [bumpRefCount], ?_, ?_, ?_⟩
    · simp [deduplicateOrCreateFile, noFaults, hfind]
    · exact List.mem_map.mpr ⟨f, hfmem, by simp⟩
    · intro g hg hne
      exact List.mem_map.mpr ⟨g, hg, by simp [hne]⟩
    · intro g' hg'
      obtain ⟨g, hg, hgeq⟩ := List.mem_map.mp (show g' ∈ st.files.map
        (fun g => if g.id = f.id then { g with refCount := g.refCount + 1 } else g) from hg')
      by_cases hid : g.id = f.id
      · right
        have : g = f := List.inj_on_of_nodup_map hnd hg hfmem hid
        subst this
        simp [← hgeq, hid]
      · left
        have hg'g : g' = g := by
          rw [← hgeq]
          simp [hid]
        exact hg'g ▸ hg
  · intro hfind
    have hany : st.files.any (fun g => g.uid == objectUid) = false := by
      simp only [List.any_eq_false]
      intro g hg
      simpa using hfresh g hg
    simp [deduplicateOrCreateFile, noFaults, hfind, hany]

/-- C6 witness: deduplicating content `[1,2,3]` of size 3 against `stA`
reuses `fileA` (id 1) and bumps its refcount to 2; a miss on digest `[7]`
creates file id 2 with refcount 1 and the candidate uid. -/
theorem C6_dedup_or_create_witness :
    (∃ st', deduplicateOrCreateFile noFaults 0 2 "candX" [1, 2, 3] 3 stA =
        Except.ok (1, false, st') ∧ { fileA with refCount := 2 } ∈ st'.files) ∧
    deduplicateOrCreateFile noFaults 0 2 "candX" [7] 1 stA =
      Except.ok (2, true,
        { stA with files := stA.files ++ [⟨2, 2, 0, [7], 1, 1, "candX"⟩], nextFileId := 3 }) := by
  have h := C6_dedup_or_create 0 2 "candX" [1, 2, 3] 3 stA (by decide) (by decide)
  have h2 := C6_dedup_or_create 0 2 "candX" [7] 1 stA (by decide) (by decide)
  obtain ⟨st', heq, _, _, _, _, hmem, _, _⟩ := h.1 fileA (by decide)
  exact ⟨⟨st', by simpa using heq, hmem⟩, h2.2 (by decide)⟩

/-! ## Object creation (claim C3) -/

/-- C3: `CreateObject` with no database failure and a fresh candidate uid.
When no object with the given `(bucket, key)` exists, the objects row is
inserted referencing the file id produced by `DeduplicateOrCreateFile` and
the transaction commits, returning no error (the surplus sixth `digest`
argument of the five-placeholder INSERT is dropped by the driver, so the
row carries exactly the five listed columns).  `CreateObject` returns
`ObjectOperationConflictError` exactly when an object with that
`(bucket, key)` already exists, and in that case the transaction is rolled
back: the store is left untouched and no blob is removed. -/
theorem C3_create_object (now : Int) (dataDir : String) (bucketId : Nat)
    (objectUid : String) (mime : Option String) (digest : Bytes) (size : Nat)
    (key : Bytes) (st : DBState)
    (hfresh : ∀ f ∈ st.files, f.uid ≠ objectUid) :
    ((¬ ∃ o ∈ st.objects, o.bucketId = bucketId ∧ o.key = key) →
      ∃ fid isNew st1,
        deduplicateOrCreateFile noFaults now bucketId objectUid digest size st =
          Except.ok (fid, isNew, st1) ∧
        createObject noFaults now dataDir bucketId objectUid mime digest size key st =
          ⟨Except.ok (),
            { st1 with
                objects := st1.objects ++ [⟨st1.nextObjectId, bucketId, fid, now, key, mime⟩],
                nextObjectId := st1.nextObjectId + 1 },
            if isNew then [] else [getObjectPath dataDir bucketId objectUid]⟩) ∧
    ((createObject noFaults now dataDir bucketId objectUid mime digest size key st).result =
        Except.error OpError.conflict ↔ ∃ o ∈ st.objects, o.bucketId = bucketId ∧ o.key = key) ∧
    ((∃ o ∈ st.objects, o.bucketId = bucketId ∧ o.key = key) →
      createObject noFaults now dataDir bucketId objectUid mime digest size key st =
        ⟨Except.error OpError.conflict, st, []⟩) := by
  have hdedup : ∃ fid isNew st1,
      deduplicateOrCreateFile noFaults now bucketId objectUid digest size st =
        Except.ok (fid, isNew, st1) ∧ st1.objects = st.objects := by
    rcases hfind : st.files.find? (fun g => g.digest == digest && g.size == size) with _ | f
    · have hany : st.files.any (fun g => g.uid == objectUid) = false := by
        simp only [List.any_eq_false]
        intro g hg
        simpa using hfresh g hg
      exact ⟨st.nextFileId, true,
        { st with
            files := st.files ++ [⟨st.nextFileId, bucketId, now, digest, size, 1, objectUid⟩],
            nextFileId := st.nextFileId + 1 },
        by simp [deduplicateOrCreateFile, noFaults, hfind, hany], rfl⟩
    · exact ⟨f.id, false, { st with files := bumpRefCount f.id st.files },
        by simp [deduplicateOrCreateFile, noFaults, hfind], rfl⟩
  obtain ⟨fid, isNew, st1, hd, hobj⟩ := hdedup
  have hiff : st1.objects.any (fun o => o.bucketId == bucketId && o.key == key) = true ↔
      ∃ o ∈ st.objects, o.bucketId = bucketId ∧ o.key = key := by
    rw [hobj, List.any_eq_true]
    constructor
    · rintro ⟨o, ho, hp⟩
      exact ⟨o, ho, by simpa using hp⟩
    · rintro ⟨o, ho, h1, h2⟩
      exact ⟨o, ho, by simp [h1, h2]⟩
  by_cases hc : ∃ o ∈ st.objects, o.bucketId = bucketId ∧ o.key = key
  · have hany : st1.objects.any (fun o => o.bucketId == bucketId && o.key == key) = true :=
      hiff.mpr hc
    refine ⟨fun hnc => absurd hc hnc, ?_, fun _ => ?_⟩
    · simp [createObject, noFaults, hd, hany, hc]
    · simp [createObject, noFaults, hd, hany]
  · have hany : st1.objects.any (fun o => o.bucketId == bucketId && o.key == key) = false := by
      rcases hb : st1.objects.any (fun o => o.bucketId == bucketId && o.key == key) with _ | _
      · rfl
      · exact absurd (hiff.mp hb) hc
    refine ⟨fun _ => ⟨fid, isNew, st1, hd, ?_⟩, ?_, fun h => absurd h hc⟩
    · simp [createObject, noFaults, hd, hany]
    · simp [createObject, noFaults, hd, hany, hc]

/-- C3 witness: creating `/bar` in bucket 1 over `stA` (no `/bar` there)
commits the new row referencing the deduplicated file and reports success,
while re-creating the existing `/foo` reports exactly
`ObjectOperationConflictError` and leaves the store untouched. -/
theorem C3_create_object_witness :
    (createObject noFaults 3 "data" 1 "candC" none [1, 2, 3] 3 (asciiBytes "/bar") stA).result =
      Except.ok () ∧
    createObject noFaults 3 "data" 1 "candC" none [1, 2, 3] 3 (asciiBytes "/foo") stA =
      ⟨Except.error OpError.conflict, stA, []⟩ := by
  have h1 := C3_create_object 3 "data" 1 "candC" none [1, 2, 3] 3 (asciiBytes "/bar") stA
    (by decide)
  have h2 := C3_create_object 3 "data" 1 "candC" none [1, 2, 3] 3 (asciiBytes "/foo") stA
    (by decide)
  constructor
  · obtain ⟨fid, isNew, st1, _, hout⟩ := h1.1 (by decide)
    rw [hout]
  · exact h2.2.2 ⟨objA, by decide, by decide, rfl⟩

/-! ## Signed-URL MAC verification (claim C8) -/

/-- A parsed `uint64` comes from a non-empty slice. -/
theorem btoui64_ne_nil {l : Bytes} {n : Nat} (h : btoui64 l = some n) : l ≠ [] := by
  intro he
  subst he
  simp [btoui64] at h

/-- C8: for a signed-URL request (no API-key header) with algorithm
`MAC-SHA256` or `MAC-BLAKE3256`, parsed `sel`/`exp`/`acc` values, an
unexpired signature, `acc` nonzero and below the flag boundary, a selector
present in the bucket's MAC map and a decoded signature of exactly 32
bytes: authorization succeeds with capability set
`ObjectOperationFlags(acc)` if and only if the decoded signature equals
`H(path ++ expRaw ++ accRaw ++ secret)` — the raw ASCII query bytes, hashed
with the selected algorithm — and on mismatch the response is the 401
"permission denied (invalid signature)". -/
theorem C8_signed_url_mac (sha256 blake3 : Bytes → Bytes) (nowMs skewMs : Int)
    (bucket : AuthBucket) (req : AuthRequest) (selKey expiry access : Nat)
    (selpair : Nat × Bytes) (ds : Bytes)
    (hak : req.apiKeyHeader = [])
    (hsel : btoui64 req.sel = some selKey)
    (hexp : btoui64 req.exp = some expiry)
    (hlive : ¬ nowMs > int64OfUInt64 expiry + skewMs)
    (hacc : btoui64 req.acc = some access)
    (hancz : access ≠ 0)
    (haclt : access < ObjectFlagBoundary)
    (hsig : b64urlDecode req.sig = some ds)
    (hlen : ds.length = 32)
    (hfind : bucket.macSelectors.find? (fun s => s.1 == selKey % 4294967296) = some selpair) :
    (req.alg = asciiBytes "MAC-SHA256" →
      ((authorizeBucketAPIRequest sha256 blake3 nowMs skewMs bucket req =
          AuthOutcome.authorized access ↔
        sha256 (req.path ++ req.exp ++ req.acc ++ selpair.2) = ds) ∧
       (sha256 (req.path ++ req.exp ++ req.acc ++ selpair.2) ≠ ds →
        authorizeBucketAPIRequest sha256 blake3 nowMs skewMs bucket req =
          AuthOutcome.denied 401 "permission denied (invalid signature)"))) ∧
    (req.alg = asciiBytes "MAC-BLAKE3256" →
      ((authorizeBucketAPIRequest sha256 blake3 nowMs skewMs bucket req =
          AuthOutcome.authorized access ↔
        blake3 (req.path ++ req.exp ++ req.acc ++ selpair.2) = ds) ∧
       (blake3 (req.path ++ req.exp ++ req.acc ++ selpair.2) ≠ ds →
        authorizeBucketAPIRequest sha256 blake3 nowMs skewMs bucket req =
          AuthOutcome.denied 401 "permission denied (invalid signature)"))) := by
  have hselne : req.sel ≠ [] := btoui64_ne_nil hsel
  have hexpne : req.exp ≠ [] := btoui64_ne_nil hexp
  have haccne : req.acc ≠ [] := btoui64_ne_nil hacc
  have hsigne : req.sig ≠ [] := by
    intro he
    rw [he] at hsig
    simp [b64urlDecode] at hsig
    rw [hsig] at hlen
    simp at hlen
  have hanlt : ¬ (access = 0 ∨ access ≥ ObjectFlagBoundary) := by
    rintro (h | h)
    · exact hancz h
    · exact absurd haclt (not_lt.mpr h)
  constructor
  · intro halg
    have hres : authorizeBucketAPIRequest sha256 blake3 nowMs skewMs bucket req =
        (if sha256 (req.path ++ req.exp ++ req.acc ++ selpair.2) = ds then
          AuthOutcome.authorized access
         else AuthOutcome.denied 401 "permission denied (invalid signature)") := by
      rw [authorizeBucketAPIRequest, if_neg (by simp [hak]), if_pos (by rw [halg]; decide),
        if_neg (by simp [hselne]), if_neg (by simp [hexpne]), if_neg (by simp [haccne])]
      simp only [hsel, hexp, hacc]
      rw [if_neg hlive, if_neg hanlt, if_neg (by simp [hsigne])]
      simp only [hsig]
      rw [halg, if_pos rfl, if_neg (by simp [hlen])]
      simp only [hfind, Option.map_some']
    by_cases hdg : sha256 (req.path ++ req.exp ++ req.acc ++ selpair.2) = ds
    · rw [hres, if_pos hdg]
      exact ⟨⟨fun _ => hdg, fun _ => rfl⟩, fun hne => absurd hdg hne⟩
    · rw [hres, if_neg hdg]
      exact ⟨⟨fun h => by simp at h, fun h => absurd h hdg⟩, fun _ => rfl⟩
  · intro halg
    have hres : authorizeBucketAPIRequest sha256 blake3 nowMs skewMs bucket req =
        (if blake3 (req.path ++ req.exp ++ req.acc ++ selpair.2) = ds then
          AuthOutcome.authorized access
         else AuthOutcome.denied 401 "permission denied (invalid signature)") := by
      rw [authorizeBucketAPIRequest, if_neg (by simp [hak]), if_pos (by rw [halg]; decide),
        if_neg (by simp [hselne]), if_neg (by simp [hexpne]), if_neg (by simp [haccne])]
      simp only [hsel, hexp, hacc]
      rw [if_neg hlive, if_neg hanlt, if_neg (by simp [hsigne])]
      simp only [hsig]
      rw [halg, if_neg (by decide), if_pos rfl, if_neg (by simp [hlen])]
      simp only [hfind, Option.map_some']
    by_cases hdg : blake3 (req.path ++ req.exp ++ req.acc ++ selpair.2) = ds
    · rw [hres, if_pos hdg]
      exact ⟨⟨fun _ => hdg, fun _ => rfl⟩, fun hne => absurd hdg hne⟩
    · rw [hres, if_neg hdg]
      exact ⟨⟨fun h => by simp at h, fun h => absurd h hdg⟩, fun _ => rfl⟩

/-- The signed request of the C8 witness: `MAC-SHA256`, selector 1, expiry
99, access 8 (`ObjectRead`), signature of 43 `A`s decoding to 32 zero
bytes. -/
def reqSigned : AuthRequest :=
  ⟨asciiBytes "/foo", [], asciiBytes "MAC-SHA256", asciiBytes "1", asciiBytes "99",
    asciiBytes "8", List.replicate 43 65⟩

/-- The bucket of the C8 witness: no valid API keys, MAC selector 1 with
secret `s`. -/
def bucketSigned : AuthBucket := ⟨fun _ => false, [(1, asciiBytes "s")]⟩

/-- C8 witness: with a hash returning 32 zero bytes the signature matches
and authorization grants exactly `acc = 8`; with a hash returning 32 one
bytes it mismatches and the response is the 401 invalid-signature denial. -/
theorem C8_signed_url_mac_witness :
    authorizeBucketAPIRequest (fun _ => List.replicate 32 0) (fun _ => List.replicate 32 1)
        0 0 bucketSigned reqSigned = AuthOutcome.authorized 8 ∧
    authorizeBucketAPIRequest (fun _ => List.replicate 32 1) (fun _ => List.replicate 32 1)
        0 0 bucketSigned reqSigned =
      AuthOutcome.denied 401 "permission denied (invalid signature)" := by
  have hmatch := (C8_signed_url_mac (fun _ => List.replicate 32 0)
    (fun _ => List.replicate 32 1) 0 0 bucketSigned reqSigned 1 99 8 (1, asciiBytes "s")
    (List.replicate 32 0) rfl (by decide) (by decide) (by decide) (by decide) (by decide)
    (by decide) (by decide) (by decide) (by decide)).1 (by decide)
  have hmis := (C8_signed_url_mac (fun _ => List.replicate 32 1)
    (fun _ => List.replicate 32 1) 0 0 bucketSigned reqSigned 1 99 8 (1, asciiBytes "s")
    (List.replicate 32 0) rfl (by decide) (by decide) (by decide) (by decide) (by decide)
    (by decide) (by decide) (by decide) (by decide)).1 (by decide)
  exact ⟨hmatch.1.mpr (by decide), hmis.2 (by decide)⟩

/-! ## Store invariants (claims C4 and C5) -/

/-- Number of objects rows whose `file_id` references `fid`. -/
def refsTo (objs : List ObjectRow) (fid : Nat) : Nat :=
  (objs.filter (fun o => o.fileId == fid)).length

/-- Spec invariant P1: every objects row references an existing files row
whose refcount is at least 1. -/
def P1 (st : DBState) : Prop :=
  ∀ o ∈ st.objects, ∃ f ∈ st.files, f.id = o.fileId ∧ 1 ≤ f.refCount

/-- Spec invariant P2: every files row's refcount equals the number of
objects rows referencing it. -/
def P2 (st : DBState) : Prop :=
  ∀ f ∈ st.files, f.refCount = (refsTo st.objects f.id : Int)

/-- Well-formedness of a store: distinct ids below the `AUTOINCREMENT`
counters, plus P1 and P2. -/
structure WF (st : DBState) : Prop where
  ndf : (st.files.map FileRow.id).Nodup
  bdf : ∀ f ∈ st.files, f.id < st.nextFileId
  ndo : (st.objects.map ObjectRow.id).Nodup
  bdo : ∀ o ∈ st.objects, o.id < st.nextObjectId
  p1 : P1 st
  p2 : P2 st

theorem WF_empty : WF emptyState := by
  constructor <;> simp [emptyState, P1, P2]

theorem refsTo_cons (x : ObjectRow) (t : List ObjectRow) (fid : Nat) :
    refsTo (x :: t) fid = (if x.fileId = fid then 1 else 0) + refsTo t fid := by
  by_cases h : x.fileId = fid
  · have hb : (x.fileId == fid) = true := by simpa using h
    simp [refsTo, List.filter_cons, hb, h, Nat.add_comm]
  · have hb : (x.fileId == fid) = false := by simpa using h
    simp [refsTo, List.filter_cons, hb, h]

theorem refsTo_append_single (l : List ObjectRow) (o : ObjectRow) (fid : Nat) :
    refsTo (l ++ [o]) fid = refsTo l fid + (if o.fileId = fid then 1 else 0) := by
  by_cases h : o.fileId = fid
  · have hb : (o.fileId == fid) = true := by simpa using h
    simp [refsTo, List.filter_append, List.filter_cons, hb, h]
  · have hb : (o.fileId == fid) = false := by simpa using h
    simp [refsTo, List.filter_append, List.filter_cons, hb, h]

theorem refsTo_eq_zero (l : List ObjectRow) (fid : Nat)
    (h : ∀ o ∈ l, o.fileId ≠ fid) : refsTo l fid = 0 := by
  simp only [refsTo, List.length_eq_zero]
  rw [List.filter_eq_nil_iff]
  intro o ho
  simpa using h o ho

/-- Counting references across `setObjectFile`: rewriting the unique object
`o`'s `file_id` to `B` moves one count from `o.fileId` to `B`. -/
theorem refsTo_setObjectFile (l : List ObjectRow) (o : ObjectRow) (B : Nat)
    (mime : Option String) (ho : o ∈ l) (hnd : (l.map ObjectRow.id).Nodup) (C : Nat) :
    refsTo (setObjectFile o.id B mime l) C + (if o.fileId = C then 1 else 0) =
      refsTo l C + (if B = C then 1 else 0) := by
  induction l with
  | nil => simp at ho
  | cons a t ih =>
    have hnd' : (t.map ObjectRow.id).Nodup := (List.nodup_cons.mp hnd).2
    have hna : a.id ∉ t.map ObjectRow.id := (List.nodup_cons.mp hnd).1
    rcases List.mem_cons.mp ho with hoa | hot
    · subst hoa
      have htid : ∀ x ∈ t, x.id ≠ o.id := by
        intro x hx hxe
        exact hna (hxe ▸ List.mem_map_of_mem ObjectRow.id hx)
      have hmap : setObjectFile o.id B mime t = t := by
        unfold setObjectFile
        rw [List.map_congr_left (g := id) ?_, List.map_id]
        intro x hx
        simp [htid x hx]
      simp only [setObjectFile, List.map_cons, if_pos rfl]
      rw [show (t.map (fun x => if x.id = o.id then
        { x with fileId := B, contentTypeMime := mime } else x)) = setObjectFile o.id B mime t
        from rfl, hmap]
      rw [refsTo_cons, refsTo_cons]
      by_cases hB : B = C <;> by_cases hA : o.fileId = C <;> simp [hB, hA] <;> omega
    · have hne : a.id ≠ o.id := by
        intro hae
        exact hna (hae ▸ List.mem_map_of_mem ObjectRow.id hot)
      simp only [setObjectFile, List.map_cons, if_neg hne]
      rw [show (t.map (fun x => if x.id = o.id then
        { x with fileId := B, contentTypeMime := mime } else x)) = setObjectFile o.id B mime t
        from rfl]
      rw [refsTo_cons, refsTo_cons]
      have := ih hot hnd'
      omega

/-- `bumpRefCount` and `decRefCount` keep ids, digests, sizes and uids. -/
theorem bumpRefCount_map_id (fid : Nat) (files : List FileRow) :
    (bumpRefCount fid files).map FileRow.id = files.map FileRow.id := by
  unfold bumpRefCount
  rw [List.map_map]
  apply List.map_congr_left
  intro g _
  by_cases h : g.id = fid <;> simp [h]

theorem decRefCount_map_id (fid : Nat) (files : List FileRow) :
    (decRefCount fid files).map FileRow.id = files.map FileRow.id := by
  unfold decRefCount
  rw [List.map_map]
  apply List.map_congr_left
  intro g _
  by_cases h : g.id = fid <;> simp [h]

theorem setObjectFile_map_id (oid fid : Nat) (mime : Option String) (objs : List ObjectRow) :
    (setObjectFile oid fid mime objs).map ObjectRow.id = objs.map ObjectRow.id := by
  unfold setObjectFile
  rw [List.map_map]
  apply List.map_congr_left
  intro g _
  by_cases h : g.id = oid <;> simp [h]

/-- A successful `DeduplicateOrCreateFile` either bumped the first
`(digest, size)` match (returning its id, `isNew = false`) or appended a
fresh `ref_count = 1` row under the candidate uid (returning the fresh id,
`isNew = true`). -/
theorem dedup_ok_cases (faults : FaultOracle) (now : Int) (bucketId : Nat)
    (objectUid : String) (digest : Bytes) (size : Nat) (st : DBState)
    (fid : Nat) (isNew : Bool) (st1 : DBState)
    (h : deduplicateOrCreateFile faults now bucketId objectUid digest size st =
      Except.ok (fid, isNew, st1)) :
    (∃ f, st.files.find? (fun g => g.digest == digest && g.size == size) = some f ∧
      fid = f.id ∧ isNew = false ∧ st1 = { st with files := bumpRefCount f.id st.files }) ∨
    (st.files.find? (fun g => g.digest == digest && g.size == size) = none ∧
      fid = st.nextFileId ∧ isNew = true ∧
      st1 = { st with
        files := st.files ++ [⟨st.nextFileId, bucketId, now, digest, size, 1, objectUid⟩],
        nextFileId := st.nextFileId + 1 }) := by
  by_cases hfu : faults .dedupUpdate
  · simp [deduplicateOrCreateFile, hfu] at h
  rcases hfind : st.files.find? (fun g => g.digest == digest && g.size == size) with _ | f
  · by_cases hfi : faults .dedupInsert
    · simp [deduplicateOrCreateFile, hfu, hfind, hfi] at h
    by_cases hany : st.files.any (fun g => g.uid == objectUid)
    · simp [deduplicateOrCreateFile, hfu, hfind, hfi, hany] at h
    · right
      have hany' : st.files.any (fun g => g.uid == objectUid) = false := by
        simpa using hany
      simp only [deduplicateOrCreateFile, if_neg hfu, hfind, if_neg hfi, hany',
        Bool.false_eq_true, if_neg, ite_false, not_false_eq_true] at h
      have := Except.ok.inj h
      exact ⟨hfind, (congrArg Prod.fst this).symm, (congrArg (fun p => p.2.1) this).symm,
        (congrArg (fun p => p.2.2) this).symm⟩
  · left
    simp only [deduplicateOrCreateFile, if_neg hfu, hfind] at h
    have := Except.ok.inj h
    exact ⟨f, hfind, (congrArg Prod.fst this).symm, (congrArg (fun p => p.2.1) this).symm,
      (congrArg (fun p => p.2.2) this).symm⟩

/-- `find?` by id through `bumpRefCount` finds the bumped image of the row
`find?` by id finds in the original table. -/
theorem find_id_bumpRefCount (fid tid : Nat) (files : List FileRow) :
    (bumpRefCount fid files).find? (fun f => f.id == tid) =
      (files.find? (fun f => f.id == tid)).map
        (fun g => if g.id = fid then { g with refCount := g.refCount + 1 } else g) := by
  unfold bumpRefCount
  rw [List.find?_map]
  have hp : ((fun f : FileRow => f.id == tid) ∘
      (fun g : FileRow => if g.id = fid then { g with refCount := g.refCount + 1 } else g)) =
      (fun f : FileRow => f.id == tid) := by
    funext g
    by_cases h : g.id = fid <;> simp [Function.comp, h]
  rw [hp]

/-- `find?` by an id bounded below the appended row's id ignores the
appended row. -/
theorem find_id_append_small (files : List FileRow) (nf : FileRow) (tid : Nat)
    (hne : nf.id ≠ tid) :
    (files ++ [nf]).find? (fun f => f.id == tid) = files.find? (fun f => f.id == tid) := by
  induction files with
  | nil =>
    have hb : (nf.id == tid) = false := by simpa using hne
    simp [List.find?, hb]
  | cons a t ih =>
    by_cases ha : a.id = tid
    · simp [List.find?, ha]
    · have hb : (a.id == tid) = false := by simpa using ha
      simp only [List.cons_append, List.find?, hb]
      exact ih

/-- Ids are preserved by the refcount bump. -/
theorem bump_image_id (f : FileRow) (fid : Nat) :
    (if f.id = fid then { f with refCount := f.refCount + 1 } else f).id = f.id := by
  by_cases h : f.id = fid <;> simp [h]

/-- Committing a create that reuses file `f` preserves well-formedness. -/
theorem WF_create_commit_bump (st : DBState) (h : WF st) (f : FileRow) (hf : f ∈ st.files)
    (bucketId : Nat) (now : Int) (key : Bytes) (mime : Option String) :
    WF { files := bumpRefCount f.id st.files,
         objects := st.objects ++ [⟨st.nextObjectId, bucketId, f.id, now, key, mime⟩],
         nextFileId := st.nextFileId,
         nextObjectId := st.nextObjectId + 1 } := by
  constructor <;> dsimp only
  · rw [bumpRefCount_map_id]
    exact h.ndf
  · intro g' hg'
    obtain ⟨g, hg, hge⟩ := List.mem_map.mp (show g' ∈ st.files.map _ from hg')
    have hid : g'.id = g.id := by rw [← hge]; exact bump_image_id g f.id
    rw [hid]
    exact h.bdf g hg
  · rw [List.map_append]
    refine List.Nodup.append h.ndo (by simp) ?_
    intro a ha hb
    obtain ⟨o, ho, rfl⟩ := List.mem_map.mp ha
    simp only [List.map_cons, List.map_nil, List.mem_singleton] at hb
    exact absurd hb (Nat.ne_of_lt (h.bdo o ho))
  · intro o' ho'
    rcases List.mem_append.mp ho' with hold | hnew
    · exact Nat.lt_succ_of_lt (h.bdo o' hold)
    · simp only [List.mem_singleton] at hnew
      rw [hnew]
      exact Nat.lt_succ_self _
  · intro o' ho'
    rcases List.mem_append.mp ho' with hold | hnew
    · obtain ⟨f', hf', hfid, hge1⟩ := h.p1 o' hold
      refine ⟨if f'.id = f.id then { f' with refCount := f'.refCount + 1 } else f',
        List.mem_map_of_mem _ hf', ?_, ?_⟩
      · rw [bump_image_id]; exact hfid
      · by_cases hc : f'.id = f.id <;> simp [hc] <;> omega
    · simp only [List.mem_singleton] at hnew
      subst hnew
      refine ⟨{ f with refCount := f.refCount + 1 }, ?_, by simp, ?_⟩
      · exact List.mem_map.mpr ⟨f, hf, by simp⟩
      · have hcount := h.p2 f hf
        have hnn : (0 : Int) ≤ (refsTo st.objects f.id : Int) := Int.natCast_nonneg _
        simp only
        omega
  · intro g' hg'
    obtain ⟨g, hg, hge⟩ := List.mem_map.mp (show g' ∈ st.files.map _ from hg')
    have hid : g'.id = g.id := by rw [← hge]; exact bump_image_id g f.id
    have hcount := h.p2 g hg
    rw [hid, refsTo_append_single]
    by_cases hc : g.id = f.id
    · have hrc : g' = { g with refCount := g.refCount + 1 } := by rw [← hge]; simp [hc]
      have hite : ((⟨st.nextObjectId, bucketId, f.id, now, key, mime⟩ : ObjectRow).fileId = g.id) :=
        hc.symm
      rw [hrc, if_pos hite]
      simp only
      omega
    · have hrc : g' = g := by rw [← hge]; simp [hc]
      have hite : ¬ ((⟨st.nextObjectId, bucketId, f.id, now, key, mime⟩ : ObjectRow).fileId = g.id) :=
        fun he => hc he.symm
      rw [hrc, if_neg hite]
      omega

/-- Committing a create that inserted a fresh file row preserves
well-formedness. -/
theorem WF_create_commit_new (st : DBState) (h : WF st) (bucketId : Nat) (now : Int)
    (digest : Bytes) (size : Nat) (uid : String) (key : Bytes) (mime : Option String) :
    WF { files := st.files ++ [⟨st.nextFileId, bucketId, now, digest, size, 1, uid⟩],
         objects := st.objects ++ [⟨st.nextObjectId, bucketId, st.nextFileId, now, key, mime⟩],
         nextFileId := st.nextFileId + 1,
         nextObjectId := st.nextObjectId + 1 } := by
  have hnoref : ∀ o ∈ st.objects, o.fileId ≠ st.nextFileId := by
    intro o ho he
    obtain ⟨f', hf', hfid, _⟩ := h.p1 o ho
    exact absurd (hfid.trans he) (Nat.ne_of_lt (h.bdf f' hf'))
  constructor <;> dsimp only
  · rw [List.map_append]
    refine List.Nodup.append h.ndf (by simp) ?_
    intro a ha hb
    obtain ⟨g, hg, rfl⟩ := List.mem_map.mp ha
    simp only [List.map_cons, List.map_nil, List.mem_singleton] at hb
    exact absurd hb (Nat.ne_of_lt (h.bdf g hg))
  · intro g' hg'
    rcases List.mem_append.mp hg' with hold | hnew
    · exact Nat.lt_succ_of_lt (h.bdf g' hold)
    · simp only [List.mem_singleton] at hnew
      rw [hnew]
      exact Nat.lt_succ_self _
  · rw [List.map_append]
    refine List.Nodup.append h.ndo (by simp) ?_
    intro a ha hb
    obtain ⟨o, ho, rfl⟩ := List.mem_map.mp ha
    simp only [List.map_cons, List.map_nil, List.mem_singleton] at hb
    exact absurd hb (Nat.ne_of_lt (h.bdo o ho))
  · intro o' ho'
    rcases List.mem_append.mp ho' with hold | hnew
    · exact Nat.lt_succ_of_lt (h.bdo o' hold)
    · simp only [List.mem_singleton] at hnew
      rw [hnew]
      exact Nat.lt_succ_self _
  · intro o' ho'
    rcases List.mem_append.mp ho' with hold | hnew
    · obtain ⟨f', hf', hfid, hge1⟩ := h.p1 o' hold
      exact ⟨f', List.mem_append_left _ hf', hfid, hge1⟩
    · simp only [List.mem_singleton] at hnew
      subst hnew
      exact ⟨⟨st.nextFileId, bucketId, now, digest, size, 1, uid⟩,
        List.mem_append_right _ (by simp), by simp, by simp⟩
  · intro g' hg'
    rcases List.mem_append.mp hg' with hold | hnew
    · rw [refsTo_append_single]
      have hite : ¬ ((⟨st.nextObjectId, bucketId, st.nextFileId, now, key, mime⟩ :
          ObjectRow).fileId = g'.id) := by
        simpa using fun he => absurd he.symm (Nat.ne_of_lt (h.bdf g' hold))
      rw [if_neg hite]
      simpa using h.p2 g' hold
    · simp only [List.mem_singleton] at hnew
      subst hnew
      rw [refsTo_append_single]
      simp only
      rw [refsTo_eq_zero st.objects st.nextFileId hnoref]
      simp

/-- `CreateObject` preserves well-formedness, whatever statements fail:
every error path rolls back to the initial state and the commit is one of
the two shapes above. -/
theorem createObject_WF (faults : FaultOracle) (now : Int) (dataDir : String) (bucketId : Nat)
    (objectUid : String) (mime : Option String) (digest : Bytes) (size : Nat) (key : Bytes)
    (st : DBState) (h : WF st) :
    WF (createObject faults now dataDir bucketId objectUid mime digest size key st).state := by
  by_cases hb : faults .beginTx
  · simpa [createObject, hb] using h
  rcases hd : deduplicateOrCreateFile faults now bucketId objectUid digest size st with
    e | ⟨fid, isNew, st1⟩
  · simpa [createObject, hb, hd] using h
  by_cases hins : faults .insertObject
  · simpa [createObject, hb, hd, hins] using h
  by_cases hconf : st1.objects.any (fun o => o.bucketId == bucketId && o.key == key) = true
  · simpa [createObject, hb, hd, hins, hconf] using h
  by_cases hcm : faults .commitTx
  · simpa [createObject, hb, hd, hins, hconf, hcm] using h
  have hout : (createObject faults now dataDir bucketId objectUid mime digest size key st).state =
      { st1 with
          objects := st1.objects ++ [⟨st1.nextObjectId, bucketId, fid, now, key, mime⟩],
          nextObjectId := st1.nextObjectId + 1 } := by
    simp [createObject, hb, hd, hins, hconf, hcm]
  rw [hout]
  rcases dedup_ok_cases faults now bucketId objectUid digest size st fid isNew st1 hd with
    ⟨f, hfind, hfid, _, hst1⟩ | ⟨hfind, hfid, _, hst1⟩
  · subst hst1
    subst hfid
    exact WF_create_commit_bump st h f (List.mem_of_find?_eq_some hfind) bucketId now key mime
  · subst hst1
    subst hfid
    exact WF_create_commit_new st h bucketId now digest size objectUid key mime

/-- A referencing object witnesses a positive reference count. -/
theorem refsTo_pos (objs : List ObjectRow) (o : ObjectRow) (ho : o ∈ objs) (C : Nat)
    (hc : o.fileId = C) : 1 ≤ refsTo objs C := by
  have : o ∈ objs.filter (fun x => x.fileId == C) :=
    List.mem_filter.mpr ⟨ho, by simpa using hc⟩
  have hlen := List.length_pos.mpr (List.ne_nil_of_mem this)
  simpa [refsTo] using hlen

/-- Ids are preserved by the refcount decrement. -/
theorem dec_image_id (f : FileRow) (fid : Nat) :
    (if f.id = fid then { f with refCount := f.refCount - 1 } else f).id = f.id := by
  by_cases h : f.id = fid <;> simp [h]

/-- The image of a row under `setObjectFile`. -/
theorem setObject_image_id (o : ObjectRow) (oid fid : Nat) (mime : Option String) :
    (if o.id = oid then { o with fileId := fid, contentTypeMime := mime } else o).id = o.id := by
  by_cases h : o.id = oid <;> simp [h]

/-- Core preservation lemma for the committed state of `ReplaceObject`.
`files1` abstracts the post-dedup files table (either the bump of an
existing row `B` or the append of a fresh row with id `B`), characterized
by: every row's refcount is its pre-state reference count plus one exactly
for row `B` (`hcnt`), every referenced id and `B` itself have a row
(`hex`), distinct ids (`hnd1`) bounded by `nextF` (`hbd1`).  The commit
then rewires `obj` to `B`, decrements `obj.fileId`, and either keeps the
decremented row (its reference count stayed positive) or deletes it
(reference count zero). -/
theorem WF_replace_core (st : DBState) (h : WF st) (obj : ObjectRow) (hobj : obj ∈ st.objects)
    (mime : Option String) (B : Nat) (files1 : List FileRow) (nextF : Nat)
    (hcnt : ∀ g1 ∈ files1, g1.refCount = (refsTo st.objects g1.id : Int) +
      (if g1.id = B then 1 else 0))
    (hex : ∀ C : Nat, (1 ≤ refsTo st.objects C ∨ C = B) → ∃ g1 ∈ files1, g1.id = C)
    (hnd1 : (files1.map FileRow.id).Nodup)
    (hbd1 : ∀ g ∈ files1, g.id < nextF) :
    (refsTo (setObjectFile obj.id B mime st.objects) obj.fileId ≠ 0 →
      WF ⟨decRefCount obj.fileId files1,
          setObjectFile obj.id B mime st.objects, nextF, st.nextObjectId⟩) ∧
    (refsTo (setObjectFile obj.id B mime st.objects) obj.fileId = 0 →
      WF ⟨(decRefCount obj.fileId files1).filter (fun f => f.id ≠ obj.fileId),
          setObjectFile obj.id B mime st.objects, nextF, st.nextObjectId⟩) := by
  have hcount : ∀ C : Nat,
      refsTo (setObjectFile obj.id B mime st.objects) C + (if obj.fileId = C then 1 else 0) =
        refsTo st.objects C + (if B = C then 1 else 0) :=
    refsTo_setObjectFile st.objects obj B mime hobj h.ndo
  -- reference counts of the decremented table match the rewired objects
  have hP2 : ∀ g2 ∈ decRefCount obj.fileId files1,
      g2.refCount = (refsTo (setObjectFile obj.id B mime st.objects) g2.id : Int) := by
    intro g2 hg2
    obtain ⟨g1, hg1, hge⟩ := List.mem_map.mp (show g2 ∈ files1.map _ from hg2)
    have hid : g2.id = g1.id := by rw [← hge]; exact dec_image_id g1 obj.fileId
    have hrc : g2.refCount = g1.refCount - (if g1.id = obj.fileId then 1 else 0) := by
      rw [← hge]
      by_cases hga : g1.id = obj.fileId <;> simp [hga]
    have h1 := hcnt g1 hg1
    have h2 := hcount g1.id
    have horient : ∀ (x y : Nat) (v w : Nat),
        (if x = y then v else w) = (if y = x then v else w) := by
      intro x y v w
      by_cases hxy : x = y
      · rw [if_pos hxy, if_pos hxy.symm]
      · rw [if_neg hxy, if_neg (fun he => hxy he.symm)]
    rw [horient obj.fileId g1.id 1 0, horient B g1.id 1 0] at h2
    rw [hid, hrc]
    by_cases hb : g1.id = B
    · by_cases ha : g1.id = obj.fileId
      · rw [if_pos hb] at h1; rw [if_pos ha, if_pos hb] at h2; rw [if_pos ha]; omega
      · rw [if_pos hb] at h1; rw [if_neg ha, if_pos hb] at h2; rw [if_neg ha]; omega
    · by_cases ha : g1.id = obj.fileId
      · rw [if_neg hb] at h1; rw [if_pos ha, if_neg hb] at h2; rw [if_pos ha]; omega
      · rw [if_neg hb] at h1; rw [if_neg ha, if_neg hb] at h2; rw [if_neg ha]; omega
  -- a surviving row for every id the rewired objects reference
  have hrow : ∀ o2 ∈ setObjectFile obj.id B mime st.objects,
      ∃ g2 ∈ decRefCount obj.fileId files1, g2.id = o2.fileId := by
    intro o2 ho2
    obtain ⟨o0, ho0, hoe⟩ := List.mem_map.mp (show o2 ∈ st.objects.map _ from ho2)
    have hCcond : 1 ≤ refsTo st.objects o2.fileId ∨ o2.fileId = B := by
      by_cases ho0id : o0.id = obj.id
      · have ho0obj : o0 = obj := List.inj_on_of_nodup_map h.ndo ho0 hobj ho0id
        right
        rw [← hoe, ho0obj]
        simp
      · left
        have : o2 = o0 := by rw [← hoe]; simp [ho0id]
        rw [this]
        exact refsTo_pos st.objects o0 ho0 o0.fileId rfl
    obtain ⟨g1, hg1, hgid⟩ := hex o2.fileId hCcond
    refine ⟨if g1.id = obj.fileId then { g1 with refCount := g1.refCount - 1 } else g1,
      List.mem_map.mpr ⟨g1, hg1, rfl⟩, ?_⟩
    rw [dec_image_id]
    exact hgid
  have hpos : ∀ o2 ∈ setObjectFile obj.id B mime st.objects,
      1 ≤ refsTo (setObjectFile obj.id B mime st.objects) o2.fileId := by
    intro o2 ho2
    exact refsTo_pos _ o2 ho2 _ rfl
  have hndf2 : ((decRefCount obj.fileId files1).map FileRow.id).Nodup := by
    rw [decRefCount_map_id]
    exact hnd1
  have hbdf2 : ∀ g ∈ decRefCount obj.fileId files1, g.id < nextF := by
    intro g2 hg2
    obtain ⟨g1, hg1, hge⟩ := List.mem_map.mp (show g2 ∈ files1.map _ from hg2)
    have hid : g2.id = g1.id := by rw [← hge]; exact dec_image_id g1 obj.fileId
    rw [hid]
    exact hbd1 g1 hg1
  have hndo2 : ((setObjectFile obj.id B mime st.objects).map ObjectRow.id).Nodup := by
    rw [setObjectFile_map_id]
    exact h.ndo
  have hbdo2 : ∀ o2 ∈ setObjectFile obj.id B mime st.objects, o2.id < st.nextObjectId := by
    intro o2 ho2
    obtain ⟨o0, ho0, hoe⟩ := List.mem_map.mp (show o2 ∈ st.objects.map _ from ho2)
    have hid : o2.id = o0.id := by rw [← hoe]; exact setObject_image_id o0 obj.id B mime
    rw [hid]
    exact h.bdo o0 ho0
  constructor
  · intro _
    constructor <;> dsimp only
    · exact hndf2
    · exact hbdf2
    · exact hndo2
    · exact hbdo2
    · intro o2 ho2
      obtain ⟨g2, hg2, hgid⟩ := hrow o2 ho2
      refine ⟨g2, hg2, hgid, ?_⟩
      rw [hP2 g2 hg2, hgid]
      exact_mod_cast hpos o2 ho2
    · intro g2 hg2
      exact hP2 g2 hg2
  · intro hzero
    constructor <;> dsimp only
    · exact List.Nodup.sublist (List.Sublist.map _ (List.filter_sublist _)) hndf2
    · intro g2 hg2
      exact hbdf2 g2 (List.mem_of_mem_filter hg2)
    · exact hndo2
    · exact hbdo2
    · intro o2 ho2
      obtain ⟨g2, hg2, hgid⟩ := hrow o2 ho2
      have hne : o2.fileId ≠ obj.fileId := by
        intro he
        have := hpos o2 ho2
        rw [he, hzero] at this
        exact absurd this (by simp)
      refine ⟨g2, List.mem_filter.mpr ⟨hg2, by simpa [hgid] using hne⟩, hgid, ?_⟩
      rw [hP2 g2 hg2, hgid]
      exact_mod_cast hpos o2 ho2
    · intro g2 hg2
      exact hP2 g2 (List.mem_of_mem_filter hg2)

/-- A positive reference count exhibits a referencing object. -/
theorem exists_of_refsTo_pos (objs : List ObjectRow) (C : Nat) (h : 1 ≤ refsTo objs C) :
    ∃ o ∈ objs, o.fileId = C := by
  have hne : objs.filter (fun x => x.fileId == C) ≠ [] := by
    intro he
    rw [refsTo, he] at h
    simp at h
  obtain ⟨o, ho⟩ := List.exists_mem_of_ne_nil _ hne
  exact ⟨o, (List.mem_filter.mp ho).1, by simpa using (List.mem_filter.mp ho).2⟩

/-- Orientation change of an `if` on an equality. -/
theorem ite_eq_symm {α : Sort _} (x y : Nat) (v w : α) :
    (if x = y then v else w) = (if y = x then v else w) := by
  by_cases hxy : x = y
  · rw [if_pos hxy, if_pos hxy.symm]
  · rw [if_neg hxy, if_neg (fun he => hxy he.symm)]

/-- `ReplaceObject` preserves well-formedness, whatever statements fail. -/
theorem replaceObject_WF (faults : FaultOracle) (now : Int) (dataDir : String) (bucketId : Nat)
    (objectUid : String) (mime : Option String) (digest : Bytes) (size : Nat) (key : Bytes)
    (st : DBState) (h : WF st) :
    WF (replaceObject faults now dataDir bucketId objectUid mime digest size key st).state := by
  by_cases hb : faults .beginTx
  · simpa [replaceObject, hb] using h
  by_cases hs : faults .selectObject
  · simpa [replaceObject, hb, hs] using h
  rcases hsel : st.objects.find? (fun o => o.key == key) with _ | obj
  · simpa [replaceObject, hb, hs, hsel] using h
  rcases hd : deduplicateOrCreateFile faults now bucketId objectUid digest size st with
    e | ⟨fid, isNew, st1⟩
  · simpa [replaceObject, hb, hs, hsel, hd] using h
  by_cases hu : faults .updateObject
  · simpa [replaceObject, hb, hs, hsel, hd, hu] using h
  by_cases hdc : faults .decrementRef
  · simpa [replaceObject, hb, hs, hsel, hd, hu, hdc] using h
  have hobj : obj ∈ st.objects := List.mem_of_find?_eq_some hsel
  have hpf0ex : ∃ pf0, st.files.find? (fun g => g.id == obj.fileId) = some pf0 := by
    obtain ⟨f', hf', hfid, _⟩ := h.p1 obj hobj
    exact Option.isSome_iff_exists.mp (List.find?_isSome.mpr ⟨f', hf', by simpa using hfid⟩)
  obtain ⟨pf0, hpf0⟩ := hpf0ex
  have hpf0id : pf0.id = obj.fileId := by simpa using List.find?_some hpf0
  have hpf0mem : pf0 ∈ st.files := List.mem_of_find?_eq_some hpf0
  have hAlt : obj.fileId < st.nextFileId := by
    obtain ⟨f', hf', hfid, _⟩ := h.p1 obj hobj
    exact hfid ▸ h.bdf f' hf'
  have hnoref : ∀ o ∈ st.objects, o.fileId ≠ st.nextFileId := by
    intro o ho he
    obtain ⟨f', hf', hfid, _⟩ := h.p1 o ho
    exact absurd (hfid.trans he) (Nat.ne_of_lt (h.bdf f' hf'))
  rcases dedup_ok_cases faults now bucketId objectUid digest size st fid isNew st1 hd with
    ⟨f, hfind, hfid2, hisnew, hst1⟩ | ⟨hfind, hfid2, hisnew, hst1⟩
  · -- dedup reused an existing row f
    subst hst1
    subst hfid2
    have hfmem : f ∈ st.files := List.mem_of_find?_eq_some hfind
    have hfind1 : (bumpRefCount f.id st.files).find? (fun g => g.id == obj.fileId) =
        some (if pf0.id = f.id then { pf0 with refCount := pf0.refCount + 1 } else pf0) := by
      rw [find_id_bumpRefCount, hpf0, Option.map_some']
    have hcnt : ∀ g1 ∈ bumpRefCount f.id st.files,
        g1.refCount = (refsTo st.objects g1.id : Int) + (if g1.id = f.id then 1 else 0) := by
      intro g1 hg1
      obtain ⟨g, hg, hge⟩ := List.mem_map.mp (show g1 ∈ st.files.map _ from hg1)
      have hp2 := h.p2 g hg
      by_cases hgf : g.id = f.id
      · have he : g1 = { g with refCount := g.refCount + 1 } := by rw [← hge]; simp [hgf]
        rw [he]
        simp [hgf, hp2]
      · have he : g1 = g := by rw [← hge]; simp [hgf]
        rw [he]
        simp [hgf, hp2]
    have hex : ∀ C : Nat, (1 ≤ refsTo st.objects C ∨ C = f.id) →
        ∃ g1 ∈ bumpRefCount f.id st.files, g1.id = C := by
      intro C hC
      have hrow : ∃ g ∈ st.files, g.id = C := by
        rcases hC with hpos | heq
        · obtain ⟨o, ho, hoc⟩ := exists_of_refsTo_pos st.objects C hpos
          obtain ⟨f', hf', hfid', _⟩ := h.p1 o ho
          exact ⟨f', hf', hfid'.trans hoc⟩
        · exact ⟨f, hfmem, heq.symm⟩
      obtain ⟨g, hg, hgc⟩ := hrow
      exact ⟨_, List.mem_map.mpr ⟨g, hg, rfl⟩, by rw [bump_image_id]; exact hgc⟩
    have hnd1 : ((bumpRefCount f.id st.files).map FileRow.id).Nodup := by
      rw [bumpRefCount_map_id]; exact h.ndf
    have hbd1 : ∀ g ∈ bumpRefCount f.id st.files, g.id < st.nextFileId := by
      intro g1 hg1
      obtain ⟨g, hg, hge⟩ := List.mem_map.mp (show g1 ∈ st.files.map _ from hg1)
      have hid : g1.id = g.id := by rw [← hge]; exact bump_image_id g f.id
      rw [hid]; exact h.bdf g hg
    have hcore := WF_replace_core st h obj hobj mime f.id (bumpRefCount f.id st.files)
      st.nextFileId hcnt hex hnd1 hbd1
    have hpf1mem : (if pf0.id = f.id then { pf0 with refCount := pf0.refCount + 1 } else pf0) ∈
        bumpRefCount f.id st.files := List.mem_map.mpr ⟨pf0, hpf0mem, rfl⟩
    have hpf1id : (if pf0.id = f.id then
        { pf0 with refCount := pf0.refCount + 1 } else pf0).id = obj.fileId := by
      rw [bump_image_id]; exact hpf0id
    have hrel : ((refsTo (setObjectFile obj.id f.id mime st.objects) obj.fileId : Int)) =
        (if pf0.id = f.id then { pf0 with refCount := pf0.refCount + 1 } else pf0).refCount - 1 := by
      have h1 := hcnt _ hpf1mem
      rw [hpf1id] at h1
      have h2 := refsTo_setObjectFile st.objects obj f.id mime hobj h.ndo obj.fileId
      rw [if_pos rfl] at h2
      rw [ite_eq_symm f.id obj.fileId 1 0] at h2
      rw [h1]
      by_cases hba : obj.fileId = f.id
      · rw [if_pos hba] at h2 ⊢
        omega
      · rw [if_neg hba] at h2 ⊢
        omega
    by_cases hz : (if pf0.id = f.id then
        { pf0 with refCount := pf0.refCount + 1 } else pf0).refCount - 1 = 0
    · by_cases hdel : faults .deleteFile
      · simpa [replaceObject, hb, hs, hsel, hd, hu, hdc, hfind1, hz, hdel] using h
      by_cases hcm : faults .commitTx
      · simpa [replaceObject, hb, hs, hsel, hd, hu, hdc, hfind1, hz, hdel, hcm] using h
      have hstate :
          (replaceObject faults now dataDir bucketId objectUid mime digest size key st).state =
          ⟨(decRefCount obj.fileId (bumpRefCount f.id st.files)).filter
              (fun g => g.id ≠ obj.fileId),
            setObjectFile obj.id f.id mime st.objects, st.nextFileId, st.nextObjectId⟩ := by
        simp [replaceObject, hb, hs, hsel, hd, hu, hdc, hfind1, hz, hdel, hcm]
      rw [hstate]
      exact hcore.2 (by omega)
    · by_cases hcm : faults .commitTx
      · simpa [replaceObject, hb, hs, hsel, hd, hu, hdc, hfind1, hz, hcm] using h
      have hstate :
          (replaceObject faults now dataDir bucketId objectUid mime digest size key st).state =
          ⟨decRefCount obj.fileId (bumpRefCount f.id st.files),
            setObjectFile obj.id f.id mime st.objects, st.nextFileId, st.nextObjectId⟩ := by
        simp [replaceObject, hb, hs, hsel, hd, hu, hdc, hfind1, hz, hcm]
      rw [hstate]
      refine hcore.1 ?_
      intro he
      rw [he] at hrel
      simp at hrel
      omega
  · -- dedup inserted a fresh row
    subst hst1
    subst hfid2
    have hfind1 : (st.files ++
        [(⟨st.nextFileId, bucketId, now, digest, size, 1, objectUid⟩ : FileRow)]).find?
          (fun g => g.id == obj.fileId) = some pf0 := by
      rw [find_id_append_small _ _ _ (by simpa using Nat.ne_of_gt hAlt)]
      exact hpf0
    have hcnt : ∀ g1 ∈ st.files ++ [(⟨st.nextFileId, bucketId, now, digest, size, 1, objectUid⟩ : FileRow)],
        g1.refCount = (refsTo st.objects g1.id : Int) +
          (if g1.id = st.nextFileId then 1 else 0) := by
      intro g1 hg1
      rcases List.mem_append.mp hg1 with hold | hnew
      · rw [if_neg (Nat.ne_of_lt (h.bdf g1 hold))]
        simpa using h.p2 g1 hold
      · simp only [List.mem_singleton] at hnew
        subst hnew
        simp only [if_pos rfl]
        rw [refsTo_eq_zero st.objects st.nextFileId hnoref]
        simp
    have hex : ∀ C : Nat, (1 ≤ refsTo st.objects C ∨ C = st.nextFileId) →
        ∃ g1 ∈ st.files ++ [(⟨st.nextFileId, bucketId, now, digest, size, 1, objectUid⟩ : FileRow)],
          g1.id = C := by
      intro C hC
      rcases hC with hpos | heq
      · obtain ⟨o, ho, hoc⟩ := exists_of_refsTo_pos st.objects C hpos
        obtain ⟨f', hf', hfid', _⟩ := h.p1 o ho
        exact ⟨f', List.mem_append_left _ hf', hfid'.trans hoc⟩
      · exact ⟨⟨st.nextFileId, bucketId, now, digest, size, 1, objectUid⟩,
          List.mem_append_right _ (by simp), heq.symm⟩
    have hnd1 : ((st.files ++
        [(⟨st.nextFileId, bucketId, now, digest, size, 1, objectUid⟩ : FileRow)]).map FileRow.id).Nodup := by
      rw [List.map_append]
      refine List.Nodup.append h.ndf (by simp) ?_
      intro a ha hbm
      obtain ⟨g, hg, rfl⟩ := List.mem_map.mp ha
      simp only [List.map_cons, List.map_nil, List.mem_singleton] at hbm
      exact absurd hbm (Nat.ne_of_lt (h.bdf g hg))
    have hbd1 : ∀ g ∈ st.files ++ [(⟨st.nextFileId, bucketId, now, digest, size, 1, objectUid⟩ : FileRow)],
        g.id < st.nextFileId + 1 := by
      intro g hg
      rcases List.mem_append.mp hg with hold | hnew
      · exact Nat.lt_succ_of_lt (h.bdf g hold)
      · simp only [List.mem_singleton] at hnew
        rw [hnew]
        exact Nat.lt_succ_self _
    have hcore := WF_replace_core st h obj hobj mime st.nextFileId
      (st.files ++ [(⟨st.nextFileId, bucketId, now, digest, size, 1, objectUid⟩ : FileRow)])
      (st.nextFileId + 1) hcnt hex hnd1 hbd1
    have hrel : ((refsTo (setObjectFile obj.id st.nextFileId mime st.objects)
        obj.fileId : Int)) = pf0.refCount - 1 := by
      have h1 := hcnt pf0 (List.mem_append_left _ hpf0mem)
      rw [hpf0id] at h1
      have h2 := refsTo_setObjectFile st.objects obj st.nextFileId mime hobj h.ndo obj.fileId
      rw [if_pos rfl] at h2
      rw [ite_eq_symm st.nextFileId obj.fileId 1 0] at h2
      rw [h1]
      rw [if_neg (Nat.ne_of_lt hAlt)] at h2 ⊢
      omega
    by_cases hz : pf0.refCount - 1 = 0
    · by_cases hdel : faults .deleteFile
      · simpa [replaceObject, hb, hs, hsel, hd, hu, hdc, hfind1, hz, hdel] using h
      by_cases hcm : faults .commitTx
      · simpa [replaceObject, hb, hs, hsel, hd, hu, hdc, hfind1, hz, hdel, hcm] using h
      have hstate :
          (replaceObject faults now dataDir bucketId objectUid mime digest size key st).state =
          ⟨(decRefCount obj.fileId (st.files ++
              [(⟨st.nextFileId, bucketId, now, digest, size, 1, objectUid⟩ : FileRow)])).filter
              (fun g => g.id ≠ obj.fileId),
            setObjectFile obj.id st.nextFileId mime st.objects, st.nextFileId + 1,
            st.nextObjectId⟩ := by
        simp [replaceObject, hb, hs, hsel, hd, hu, hdc, hfind1, hz, hdel, hcm]
      rw [hstate]
      exact hcore.2 (by omega)
    · by_cases hcm : faults .commitTx
      · simpa [replaceObject, hb, hs, hsel, hd, hu, hdc, hfind1, hz, hcm] using h
      have hstate :
          (replaceObject faults now dataDir bucketId objectUid mime digest size key st).state =
          ⟨decRefCount obj.fileId (st.files ++
              [(⟨st.nextFileId, bucketId, now, digest, size, 1, objectUid⟩ : FileRow)]),
            setObjectFile obj.id st.nextFileId mime st.objects, st.nextFileId + 1,
            st.nextObjectId⟩ := by
        simp [replaceObject, hb, hs, hsel, hd, hu, hdc, hfind1, hz, hcm]
      rw [hstate]
      refine hcore.1 ?_
      intro he
      rw [he] at hrel
      simp at hrel
      omega

/-! ## The refcount invariant over operation sequences (claim C5) -/

/-- The arguments of one metadata write operation, with its own fault
oracle and clock reading. -/
structure OpArgs where
  faults : FaultOracle
  now : Int
  bucketId : Nat
  objectUid : String
  mime : Option String
  digest : Bytes
  size : Nat
  key : Bytes

/-- One store operation: a `CreateObject` or a `ReplaceObject` call. -/
inductive StoreOp
  | create (a : OpArgs)
  | replace (a : OpArgs)

/-- Run one operation against the store, keeping the committed state. -/
def runOp (dataDir : String) (st : DBState) : StoreOp → DBState
  | .create a =>
    (createObject a.faults a.now dataDir a.bucketId a.objectUid a.mime a.digest a.size a.key
      st).state
  | .replace a =>
    (replaceObject a.faults a.now dataDir a.bucketId a.objectUid a.mime a.digest a.size a.key
      st).state

/-- Run a sequence of operations from a starting state. -/
def runOps (dataDir : String) (ops : List StoreOp) (st : DBState) : DBState :=
  ops.foldl (runOp dataDir) st

/-- Every operation preserves well-formedness. -/
theorem runOp_WF (dataDir : String) (st : DBState) (op : StoreOp) (h : WF st) :
    WF (runOp dataDir st op) := by
  cases op with
  | create a =>
    exact createObject_WF a.faults a.now dataDir a.bucketId a.objectUid a.mime a.digest
      a.size a.key st h
  | replace a =>
    exact replaceObject_WF a.faults a.now dataDir a.bucketId a.objectUid a.mime a.digest
      a.size a.key st h

/-- C5: after any finite sequence of `CreateObject` and `ReplaceObject`
operations executed sequentially from the empty store — each with its own
arguments and injected statement failures — every objects row references an
existing files row whose refcount is at least 1 (P1), and every files row's
refcount equals the number of objects rows referencing it (P2). -/
theorem C5_refcount_invariant (dataDir : String) (ops : List StoreOp) :
    P1 (runOps dataDir ops emptyState) ∧ P2 (runOps dataDir ops emptyState) := by
  suffices hrun : ∀ st : DBState, WF st → WF (runOps dataDir ops st) by
    have h := hrun emptyState WF_empty
    exact ⟨h.p1, h.p2⟩
  induction ops with
  | nil => intro st h; exact h
  | cons op rest ih =>
    intro st h
    exact ih (runOp dataDir st op) (runOp_WF dataDir st op h)

/-- C4: blob reclamation discipline of `ReplaceObject`.  Naming `obj` the
selected object row and `pf` its current (previous) file row, and writing
`inc` for the refcount bump the deduplication step puts on `pf` itself when
the new content matches it: if any statement or the commit itself fails,
the transaction is rolled back — the store is exactly the starting state
and no blob is deleted.  After a successful commit the deleted blobs are
exactly: the candidate blob at `candidateUid` when deduplication reused an
existing file, and the previous file's blob when its decremented refcount
`pf.refCount + inc - 1` reached 0 — in which case the file row was deleted
inside the transaction (no committed row carries its id), while a nonzero
decremented count keeps the row. -/
theorem C4_replace_reclaim (faults : FaultOracle) (now : Int) (dataDir : String)
    (bucketId : Nat) (objectUid : String) (mime : Option String) (digest : Bytes)
    (size : Nat) (key : Bytes) (st : DBState) (obj : ObjectRow) (pf : FileRow)
    (hsel : st.objects.find? (fun o => o.key == key) = some obj)
    (hpf : st.files.find? (fun g => g.id == obj.fileId) = some pf)
    (hlt : obj.fileId < st.nextFileId) :
    ((replaceObject faults now dataDir bucketId objectUid mime digest size key st).result ≠
        Except.ok () →
      (replaceObject faults now dataDir bucketId objectUid mime digest size key st).state = st ∧
      (replaceObject faults now dataDir bucketId objectUid mime digest size key
        st).blobsDeleted = []) ∧
    ((replaceObject faults now dataDir bucketId objectUid mime digest size key st).result =
        Except.ok () →
      ((replaceObject faults now dataDir bucketId objectUid mime digest size key
          st).blobsDeleted =
        (if (st.files.find? (fun g => g.digest == digest && g.size == size)).isSome then
          [getObjectPath dataDir bucketId objectUid] else []) ++
        (if pf.refCount + (if (st.files.find? (fun g => g.digest == digest && g.size ==
            size)).map FileRow.id = some obj.fileId then 1 else 0) - 1 = 0 then
          [getObjectPath dataDir bucketId pf.uid] else [])) ∧
      (pf.refCount + (if (st.files.find? (fun g => g.digest == digest && g.size ==
          size)).map FileRow.id = some obj.fileId then 1 else 0) - 1 = 0 →
        ∀ g ∈ (replaceObject faults now dataDir bucketId objectUid mime digest size key
          st).state.files, g.id ≠ obj.fileId) ∧
      (pf.refCount + (if (st.files.find? (fun g => g.digest == digest && g.size ==
          size)).map FileRow.id = some obj.fileId then 1 else 0) - 1 ≠ 0 →
        ∃ g ∈ (replaceObject faults now dataDir bucketId objectUid mime digest size key
          st).state.files, g.id = obj.fileId)) := by
  have hpfid : pf.id = obj.fileId := by simpa using List.find?_some hpf
  have hpfmem : pf ∈ st.files := List.mem_of_find?_eq_some hpf
  by_cases hb : faults .beginTx
  · refine ⟨fun _ => by simp [replaceObject, hb], fun hok => ?_⟩
    simp [replaceObject, hb] at hok
  by_cases hs : faults .selectObject
  · refine ⟨fun _ => by simp [replaceObject, hb, hs], fun hok => ?_⟩
    simp [replaceObject, hb, hs] at hok
  rcases hd : deduplicateOrCreateFile faults now bucketId objectUid digest size st with
    e | ⟨fid, isNew, st1⟩
  · refine ⟨fun _ => by simp [replaceObject, hb, hs, hsel, hd], fun hok => ?_⟩
    simp [replaceObject, hb, hs, hsel, hd] at hok
  by_cases hu : faults .updateObject
  · refine ⟨fun _ => by simp [replaceObject, hb, hs, hsel, hd, hu], fun hok => ?_⟩
    simp [replaceObject, hb, hs, hsel, hd, hu] at hok
  by_cases hdc : faults .decrementRef
  · refine ⟨fun _ => by simp [replaceObject, hb, hs, hsel, hd, hu, hdc], fun hok => ?_⟩
    simp [replaceObject, hb, hs, hsel, hd, hu, hdc] at hok
  rcases dedup_ok_cases faults now bucketId objectUid digest size st fid isNew st1 hd with
    ⟨f, hfind, hfid2, hisnew, hst1⟩ | ⟨hfind, hfid2, hisnew, hst1⟩
  · -- dedup reused row f
    subst hst1
    subst hfid2
    subst hisnew
    have hfind1 : (bumpRefCount f.id st.files).find? (fun g => g.id == obj.fileId) =
        some (if pf.id = f.id then { pf with refCount := pf.refCount + 1 } else pf) := by
      rw [find_id_bumpRefCount, hpf, Option.map_some']
    have hinc : (if (st.files.find? (fun g => g.digest == digest && g.size ==
        size)).map FileRow.id = some obj.fileId then (1 : Int) else 0) =
        (if pf.id = f.id then 1 else 0) := by
      rw [hfind, Option.map_some']
      by_cases hfo : f.id = obj.fileId
      · rw [if_pos (by rw [hfo]), if_pos (hpfid.trans hfo.symm)]
      · rw [if_neg (by simpa using hfo), if_neg (fun he => hfo (he.symm.trans hpfid))]
    have hcount : (if pf.id = f.id then
        { pf with refCount := pf.refCount + 1 } else pf).refCount =
        pf.refCount + (if pf.id = f.id then 1 else 0) := by
      by_cases hc : pf.id = f.id <;> simp [hc]
    by_cases hz : (if pf.id = f.id then
        { pf with refCount := pf.refCount + 1 } else pf).refCount - 1 = 0
    · by_cases hdel : faults .deleteFile
      · refine ⟨fun _ => by simp [replaceObject, hb, hs, hsel, hd, hu, hdc, hfind1, hz, hdel],
          fun hok => ?_⟩
        simp [replaceObject, hb, hs, hsel, hd, hu, hdc, hfind1, hz, hdel] at hok
      by_cases hcm : faults .commitTx
      · refine ⟨fun _ => by
          simp [replaceObject, hb, hs, hsel, hd, hu, hdc, hfind1, hz, hdel, hcm],
          fun hok => ?_⟩
        simp [replaceObject, hb, hs, hsel, hd, hu, hdc, hfind1, hz, hdel, hcm] at hok
      have hout : replaceObject faults now dataDir bucketId objectUid mime digest size key st =
          ⟨Except.ok (),
            ⟨(decRefCount obj.fileId (bumpRefCount f.id st.files)).filter
                (fun g => g.id ≠ obj.fileId),
              setObjectFile obj.id f.id mime st.objects, st.nextFileId, st.nextObjectId⟩,
            [getObjectPath dataDir bucketId objectUid] ++
              [getObjectPath dataDir bucketId
                (if pf.id = f.id then { pf with refCount := pf.refCount + 1 } else pf).uid]⟩ := by
        simp [replaceObject, hb, hs, hsel, hd, hu, hdc, hfind1, hz, hdel, hcm]
      have hz' : pf.refCount + (if pf.id = f.id then (1 : Int) else 0) - 1 = 0 := by
        rw [hcount] at hz
        exact hz
      have huid : (if pf.id = f.id then
          { pf with refCount := pf.refCount + 1 } else pf).uid = pf.uid := by
        by_cases hc : pf.id = f.id <;> simp [hc]
      refine ⟨fun hne => absurd (by rw [hout]) hne, fun _ => ⟨?_, fun _ => ?_, fun hnz => ?_⟩⟩
      · rw [hout, hinc, hfind]
        simp [huid, hz']
      · intro g hg
        rw [hout] at hg
        simpa using (List.mem_filter.mp hg).2
      · rw [hinc] at hnz
        exact absurd hz' hnz
    · by_cases hcm : faults .commitTx
      · refine ⟨fun _ => by simp [replaceObject, hb, hs, hsel, hd, hu, hdc, hfind1, hz, hcm],
          fun hok => ?_⟩
        simp [replaceObject, hb, hs, hsel, hd, hu, hdc, hfind1, hz, hcm] at hok
      have hout : replaceObject faults now dataDir bucketId objectUid mime digest size key st =
          ⟨Except.ok (),
            ⟨decRefCount obj.fileId (bumpRefCount f.id st.files),
              setObjectFile obj.id f.id mime st.objects, st.nextFileId, st.nextObjectId⟩,
            [getObjectPath dataDir bucketId objectUid]⟩ := by
        simp [replaceObject, hb, hs, hsel, hd, hu, hdc, hfind1, hz, hcm]
      have hz' : ¬ (pf.refCount + (if pf.id = f.id then (1 : Int) else 0) - 1 = 0) := by
        rw [hcount] at hz
        exact hz
      refine ⟨fun hne => absurd (by rw [hout]) hne, fun _ => ⟨?_, fun hzz => ?_, fun _ => ?_⟩⟩
      · rw [hout, hinc, hfind]
        simp [hz']
      · rw [hinc] at hzz
        exact absurd hzz hz'
      · rw [hout]
        refine ⟨if (if pf.id = f.id then { pf with refCount := pf.refCount + 1 } else pf).id =
            obj.fileId then { (if pf.id = f.id then { pf with refCount := pf.refCount + 1 }
            else pf) with refCount := (if pf.id = f.id then { pf with refCount :=
            pf.refCount + 1 } else pf).refCount - 1 } else (if pf.id = f.id then
            { pf with refCount := pf.refCount + 1 } else pf), ?_, ?_⟩
        · exact List.mem_map.mpr ⟨_, List.mem_map.mpr ⟨pf, hpfmem, rfl⟩, rfl⟩
        · rw [dec_image_id, bump_image_id]
          exact hpfid
  · -- dedup inserted a fresh row
    subst hst1
    subst hfid2
    subst hisnew
    have hfind1 : (st.files ++
        [(⟨st.nextFileId, bucketId, now, digest, size, 1, objectUid⟩ : FileRow)]).find?
          (fun g => g.id == obj.fileId) = some pf := by
      rw [find_id_append_small _ _ _ (by simpa using Nat.ne_of_gt hlt)]
      exact hpf
    have hinc : (if (st.files.find? (fun g => g.digest == digest && g.size ==
        size)).map FileRow.id = some obj.fileId then (1 : Int) else 0) = 0 := by
      rw [hfind]
      simp
    by_cases hz : pf.refCount - 1 = 0
    · by_cases hdel : faults .deleteFile
      · refine ⟨fun _ => by simp [replaceObject, hb, hs, hsel, hd, hu, hdc, hfind1, hz, hdel],
          fun hok => ?_⟩
        simp [replaceObject, hb, hs, hsel, hd, hu, hdc, hfind1, hz, hdel] at hok
      by_cases hcm : faults .commitTx
      · refine ⟨fun _ => by
          simp [replaceObject, hb, hs, hsel, hd, hu, hdc, hfind1, hz, hdel, hcm],
          fun hok => ?_⟩
        simp [replaceObject, hb, hs, hsel, hd, hu, hdc, hfind1, hz, hdel, hcm] at hok
      have hout : replaceObject faults now dataDir bucketId objectUid mime digest size key st =
          ⟨Except.ok (),
            ⟨(decRefCount obj.fileId (st.files ++
                [(⟨st.nextFileId, bucketId, now, digest, size, 1, objectUid⟩ : FileRow)])).filter
                (fun g => g.id ≠ obj.fileId),
              setObjectFile obj.id st.nextFileId mime st.objects, st.nextFileId + 1,
              st.nextObjectId⟩,
            [getObjectPath dataDir bucketId pf.uid]⟩ := by
        simp [replaceObject, hb, hs, hsel, hd, hu, hdc, hfind1, hz, hdel, hcm]
      refine ⟨fun hne => absurd (by rw [hout]) hne, fun _ => ⟨?_, fun _ => ?_, fun hnz => ?_⟩⟩
      · rw [hout, hinc, hfind]
        simp [hz]
      · intro g hg
        rw [hout] at hg
        simpa using (List.mem_filter.mp hg).2
      · rw [hinc] at hnz
        omega
    · by_cases hcm : faults .commitTx
      · refine ⟨fun _ => by simp [replaceObject, hb, hs, hsel, hd, hu, hdc, hfind1, hz, hcm],
          fun hok => ?_⟩
        simp [replaceObject, hb, hs, hsel, hd, hu, hdc, hfind1, hz, hcm] at hok
      have hout : replaceObject faults now dataDir bucketId objectUid mime digest size key st =
          ⟨Except.ok (),
            ⟨decRefCount obj.fileId (st.files ++
                [(⟨st.nextFileId, bucketId, now, digest, size, 1, objectUid⟩ : FileRow)]),
              setObjectFile obj.id st.nextFileId mime st.objects, st.nextFileId + 1,
              st.nextObjectId⟩,
            []⟩ := by
        simp [replaceObject, hb, hs, hsel, hd, hu, hdc, hfind1, hz, hcm]
      refine ⟨fun hne => absurd (by rw [hout]) hne, fun _ => ⟨?_, fun hzz => ?_, fun _ => ?_⟩⟩
      · rw [hout, hinc, hfind]
        simp [hz]
      · rw [hinc] at hzz
        omega
      · rw [hout]
        refine ⟨if pf.id = obj.fileId then { pf with refCount := pf.refCount - 1 } else pf,
          ?_, ?_⟩
        · exact List.mem_map.mpr ⟨pf, List.mem_append_left _ hpfmem, rfl⟩
        · rw [dec_image_id]
          exact hpfid

/-- C4 witness: replacing `/foo` in `stA` with fresh content drops the only
reference to `fileA` (refcount 1 → 0): the committed table holds no row
with its id any more and exactly its blob `data/1/objects/uidA` is removed;
no candidate blob is removed since the content was new. -/
theorem C4_replace_reclaim_witness :
    (replaceObject noFaults 9 "data" 1 "candR" none [7] 1 (asciiBytes "/foo")
      stA).blobsDeleted = ["data/1/objects/uidA"] ∧
    ∀ g ∈ (replaceObject noFaults 9 "data" 1 "candR" none [7] 1 (asciiBytes "/foo")
      stA).state.files, g.id ≠ 1 := by
  have h := C4_replace_reclaim noFaults 9 "data" 1 "candR" none [7] 1 (asciiBytes "/foo") stA
    objA fileA (by decide) (by decide) (by decide)
  have hok : (replaceObject noFaults 9 "data" 1 "candR" none [7] 1 (asciiBytes "/foo")
      stA).result = Except.ok () := rfl
  obtain ⟨hdels, hdel0, _⟩ := h.2 hok
  constructor
  · rw [hdels]
    decide
  · have hall := hdel0 (by decide)
    intro g hg
    exact hall g hg

end SpeedyVault
